import Mathlib

/-!
The pink-noise audio engine: noise generator, shelving filters and mixer.

A shallow embedding of `internal/filter/biquad.go`, `internal/noise/generator.go` and
`internal/mixer/mixer.go`.

* `float64` arithmetic is modelled exactly, over an arbitrary linearly ordered field `α`
  (so every theorem holds over the reals, and every definition can be run over `ℚ`).
* The functions of Go's `math` package that the filter code calls are a parameter
  (`Math α`); so is the construction of a random source from a seed.
* A `*rand.Rand` is the stream of its `Float64()` results together with a read position.
* Methods that mutate their receiver return the new receiver state.
-/

namespace PinkNoise

variable {α : Type} [LinearOrderedField α]

/-! ## Library parameters -/

/-- The functions and constants of Go's `math` package used by `computeCoefficients`. -/
structure Math (α : Type) where
  Pow : α → α → α
  Pi : α
  Cos : α → α
  Sin : α → α
  Sqrt : α → α
  Sqrt2 : α

/-- A `*rand.Rand`: the stream of values its `Float64()` method returns, and how many of them
have been consumed. -/
structure Rng (α : Type) where
  stream : Nat → α
  pos : Nat

/-- The call `rng.Float64()`: the next value of the stream, and the advanced generator. -/
def Rng.Float64 (r : Rng α) : α × Rng α :=
  (r.stream r.pos, { r with pos := r.pos + 1 })

/-! ## internal/filter/biquad.go -/

abbrev ShelfType := Int

@[reducible] def LowShelf : ShelfType := 0

@[reducible] def HighShelf : ShelfType := 1

structure Biquad (α : Type) where
  b0 : α
  b1 : α
  b2 : α
  a1 : α
  a2 : α
  x1 : α
  x2 : α
  y1 : α
  y2 : α
  shelfType : ShelfType
  f0 : α
  sampleRate : α

/-- The local variables `b0, b1, b2, a0, a1, a2` of `computeCoefficients`, before normalisation. -/
structure RawCoefficients (α : Type) where
  b0 : α
  b1 : α
  b2 : α
  a0 : α
  a1 : α
  a2 : α

/-- The first part of `computeCoefficients`, up to and including the `switch`: the
unnormalised coefficients, from the fields `shelfType`, `f0` and `sampleRate` of the receiver.
A shelf type that is neither constant leaves all six at zero. -/
def rawCoefficients (M : Math α) (shelfType : ShelfType) (f0 sampleRate gainDB : α) :
    RawCoefficients α :=
  let A := M.Pow 10 (gainDB / 40.0)
  let w0 := 2 * M.Pi * f0 / sampleRate
  let cosw0 := M.Cos w0
  let sinw0 := M.Sin w0
  let alpha := sinw0 / 2 * M.Sqrt2
  if shelfType = LowShelf then
    let twoSqrtAAlpha := 2 * M.Sqrt A * alpha
    { b0 := A * ((A + 1) - (A - 1) * cosw0 + twoSqrtAAlpha)
      b1 := 2 * A * ((A - 1) - (A + 1) * cosw0)
      b2 := A * ((A + 1) - (A - 1) * cosw0 - twoSqrtAAlpha)
      a0 := (A + 1) + (A - 1) * cosw0 + twoSqrtAAlpha
      a1 := -2 * ((A - 1) + (A + 1) * cosw0)
      a2 := (A + 1) + (A - 1) * cosw0 - twoSqrtAAlpha }
  else if shelfType = HighShelf then
    let twoSqrtAAlpha := 2 * M.Sqrt A * alpha
    { b0 := A * ((A + 1) + (A - 1) * cosw0 + twoSqrtAAlpha)
      b1 := -2 * A * ((A - 1) + (A + 1) * cosw0)
      b2 := A * ((A + 1) + (A - 1) * cosw0 - twoSqrtAAlpha)
      a0 := (A + 1) - (A - 1) * cosw0 + twoSqrtAAlpha
      a1 := 2 * ((A - 1) - (A + 1) * cosw0)
      a2 := (A + 1) - (A - 1) * cosw0 - twoSqrtAAlpha }
  else
    { b0 := 0, b1 := 0, b2 := 0, a0 := 0, a1 := 0, a2 := 0 }

/-- The method `(*Biquad).computeCoefficients`. -/
def Biquad.computeCoefficients (M : Math α) (b : Biquad α) (gainDB : α) : Biquad α :=
  let c := rawCoefficients M b.shelfType b.f0 b.sampleRate gainDB
  { b with
    b0 := c.b0 / c.a0
    b1 := c.b1 / c.a0
    b2 := c.b2 / c.a0
    a1 := c.a1 / c.a0
    a2 := c.a2 / c.a0 }

/-- The constructor `NewShelf`. -/
def NewShelf (M : Math α) (shelfType : ShelfType) (f0 gainDB sampleRate : α) : Biquad α :=
  let b : Biquad α :=
    { b0 := 0, b1 := 0, b2 := 0, a1 := 0, a2 := 0, x1 := 0, x2 := 0, y1 := 0, y2 := 0
      shelfType := shelfType, f0 := f0, sampleRate := sampleRate }
  b.computeCoefficients M gainDB

/-- The method `(*Biquad).UpdateGain`. -/
def Biquad.UpdateGain (M : Math α) (b : Biquad α) (gainDB : α) : Biquad α :=
  b.computeCoefficients M gainDB

/-- The method `(*Biquad).Process`: the filter after the buffer, and the buffer as overwritten. -/
def Biquad.Process (b : Biquad α) : List α → Biquad α × List α
  | [] => (b, [])
  | x :: rest =>
    let y := b.b0 * x + b.b1 * b.x1 + b.b2 * b.x2 - b.a1 * b.y1 - b.a2 * b.y2
    let b' : Biquad α := { b with x2 := b.x1, x1 := x, y2 := b.y1, y1 := y }
    let r := Biquad.Process b' rest
    (r.1, y :: r.2)

/-! ## internal/noise/generator.go -/

abbrev Color := String

@[reducible] def White : Color := "white"

@[reducible] def Pink : Color := "pink"

@[reducible] def Brown : Color := "brown"

@[reducible] def Blue : Color := "blue"

@[reducible] def Violet : Color := "violet"

/-- A `[7]float64`. -/
structure Arr7 (α : Type) where
  s0 : α
  s1 : α
  s2 : α
  s3 : α
  s4 : α
  s5 : α
  s6 : α

structure Generator (α : Type) where
  sampleRate : Int
  rng : Rng α
  white : α
  pink : Arr7 α
  brown : α
  bluePrev : α
  violetPrevWhite : α
  violetPrevBlue : α
  pink2 : Arr7 α
  brown2 : α
  bluePrev2 : α
  violetPrevWhite2 : α
  violetPrevBlue2 : α

/-- The constructor `NewGenerator`. `newRand seed` stands for `rand.New(rand.NewSource(seed))`
and `int63` for the value `rand.Int63()` returns. -/
def NewGenerator (newRand : Int → Rng α) (int63 : Int) (sampleRate : Int) : Generator α :=
  { sampleRate := sampleRate
    rng := newRand int63
    white := 0
    pink := ⟨0, 0, 0, 0, 0, 0, 0⟩
    brown := 0
    bluePrev := 0
    violetPrevWhite := 0
    violetPrevBlue := 0
    pink2 := ⟨0, 0, 0, 0, 0, 0, 0⟩
    brown2 := 0
    bluePrev2 := 0
    violetPrevWhite2 := 0
    violetPrevBlue2 := 0 }

/-- The method `(*Generator).Reseed`. -/
def Generator.Reseed (newRand : Int → Rng α) (g : Generator α) (seed : Int) : Generator α :=
  { g with rng := newRand seed }

/-- The table `colorAnchors`. -/
def colorAnchors : List (α × Color) :=
  [(0, Brown), (25, Pink), (50, White), (75, Blue), (100, Violet)]

/-- The method `generateWhite`: the samples and the advanced random source. -/
def generateWhite (volume : α) : Nat → Rng α → List α × Rng α
  | 0, rng => ([], rng)
  | n + 1, rng =>
    let d := rng.Float64
    let r := generateWhite volume n d.2
    ((d.1 * 2 - 1) * volume :: r.1, r.2)

/-- One iteration of the loop of `generatePinkState`: the new accumulators. -/
def pinkStep (state : Arr7 α) (white : α) : Arr7 α :=
  { s0 := 0.1294 * (white - state.s0) + state.s0
    s1 := 0.1875 * (white - state.s1) + state.s1
    s2 := 0.2414 * (white - state.s2) + state.s2
    s3 := 0.3026 * (white - state.s3) + state.s3
    s4 := 0.3830 * (white - state.s4) + state.s4
    s5 := 0.4962 * (white - state.s5) + state.s5
    s6 := 0.7195 * (white - state.s6) + state.s6 }

/-- The method `generatePinkState`, `state` being the array its first argument points to:
the samples, the array afterwards and the advanced random source. -/
def generatePinkState (volume : α) : Nat → Arr7 α → Rng α → List α × Arr7 α × Rng α
  | 0, state, rng => ([], state, rng)
  | n + 1, state, rng =>
    let d := rng.Float64
    let white := d.1 * 2 - 1
    let state := pinkStep state white
    let pink := (state.s0 + state.s1 + state.s2 + state.s3 + state.s4 + state.s5 + state.s6) / 2.5
    let r := generatePinkState volume n state d.2
    (pink * volume :: r.1, r.2)

/-- The method `generateBrownState`, `state` being the value its first argument points to. -/
def generateBrownState (volume : α) : Nat → α → Rng α → List α × α × Rng α
  | 0, state, rng => ([], state, rng)
  | n + 1, state, rng =>
    let d := rng.Float64
    let white := d.1 * 2 - 1
    let state := (state + 0.02 * white) / 1.02
    let r := generateBrownState volume n state d.2
    (state * 3.5 * volume :: r.1, r.2)

/-- The method `generateBlueState`, `prev` being the value its first argument points to. -/
def generateBlueState (volume : α) : Nat → α → Rng α → List α × α × Rng α
  | 0, prev, rng => ([], prev, rng)
  | n + 1, prev, rng =>
    let d := rng.Float64
    let white := d.1 * 2 - 1
    let r := generateBlueState volume n white d.2
    ((white - prev) * volume :: r.1, r.2)

/-- The method `generateVioletState`, `prevWhite` and `prevBlue` being the values its first
two arguments point to. -/
def generateVioletState (volume : α) : Nat → α → α → Rng α → List α × (α × α) × Rng α
  | 0, prevWhite, prevBlue, rng => ([], (prevWhite, prevBlue), rng)
  | n + 1, prevWhite, prevBlue, rng =>
    let d := rng.Float64
    let white := d.1 * 2 - 1
    let blue := white - prevWhite
    let r := generateVioletState volume n white blue d.2
    ((blue - prevBlue) * volume :: r.1, r.2)

/-- The method `generateColor`: the samples and the generator afterwards. -/
def Generator.generateColor (g : Generator α) (color : Color) (primary : Bool) (samples : Nat)
    (volume : α) : List α × Generator α :=
  if color = White then
    let r := generateWhite volume samples g.rng
    (r.1, { g with rng := r.2 })
  else if color = Pink then
    if primary then
      let r := generatePinkState volume samples g.pink g.rng
      (r.1, { g with pink := r.2.1, rng := r.2.2 })
    else
      let r := generatePinkState volume samples g.pink2 g.rng
      (r.1, { g with pink2 := r.2.1, rng := r.2.2 })
  else if color = Brown then
    if primary then
      let r := generateBrownState volume samples g.brown g.rng
      (r.1, { g with brown := r.2.1, rng := r.2.2 })
    else
      let r := generateBrownState volume samples g.brown2 g.rng
      (r.1, { g with brown2 := r.2.1, rng := r.2.2 })
  else if color = Blue then
    if primary then
      let r := generateBlueState volume samples g.bluePrev g.rng
      (r.1, { g with bluePrev := r.2.1, rng := r.2.2 })
    else
      let r := generateBlueState volume samples g.bluePrev2 g.rng
      (r.1, { g with bluePrev2 := r.2.1, rng := r.2.2 })
  else if color = Violet then
    if primary then
      let r := generateVioletState volume samples g.violetPrevWhite g.violetPrevBlue g.rng
      (r.1, { g with violetPrevWhite := r.2.1.1, violetPrevBlue := r.2.1.2, rng := r.2.2 })
    else
      let r := generateVioletState volume samples g.violetPrevWhite2 g.violetPrevBlue2 g.rng
      (r.1, { g with violetPrevWhite2 := r.2.1.1, violetPrevBlue2 := r.2.1.2, rng := r.2.2 })
  else
    let r := generateWhite volume samples g.rng
    (r.1, { g with rng := r.2 })

/-- The method `Generate`. -/
def Generator.Generate (g : Generator α) (color : Color) (samples : Nat) (volume : α) :
    List α × Generator α :=
  g.generateColor color true samples volume

/-- The crossfade loop of `GenerateBlended`: `result[j] = samplesA[j]*(1-t) + samplesB[j]*t`
for `j` from `0` to `samples - 1`. -/
def crossfade (samplesA samplesB : List α) (t : α) (samples : Nat) : List α :=
  (List.range samples).map fun j => samplesA.getD j 0 * (1 - t) + samplesB.getD j 0 * t

/-- The `for` loop of `GenerateBlended` over consecutive pairs `(lo, hi)` of the anchor table,
the list argument being the part of the table from index `i` on. Falling out of the loop
reaches the final `return g.generateColor(White, true, samples, volume)`. -/
def blendLoop (g : Generator α) (colorSlider : α) (samples : Nat) (volume : α) :
    List (α × Color) → List α × Generator α
  | lo :: hi :: rest =>
    if colorSlider ≥ lo.1 ∧ colorSlider ≤ hi.1 then
      let t := (colorSlider - lo.1) / (hi.1 - lo.1)
      if t ≤ 0.001 then
        g.generateColor lo.2 true samples volume
      else if t ≥ 0.999 then
        g.generateColor hi.2 true samples volume
      else
        let a := g.generateColor lo.2 true samples volume
        let b := a.2.generateColor hi.2 false samples volume
        (crossfade a.1 b.1 t samples, b.2)
    else
      blendLoop g colorSlider samples volume (hi :: rest)
  | _ => g.generateColor White true samples volume

/-- The method `GenerateBlended`. -/
def Generator.GenerateBlended (g : Generator α) (colorSlider : α) (samples : Nat) (volume : α) :
    List α × Generator α :=
  if colorSlider ≤ 0 then
    g.generateColor Brown true samples volume
  else if colorSlider ≥ 100 then
    g.generateColor Violet true samples volume
  else
    blendLoop g colorSlider samples volume colorAnchors

/-! ## internal/mixer/mixer.go -/

structure Mixer (α : Type) where
  noiseGen : Generator α
  sampleRate : Int
  power : Bool
  masterVolume : α
  targetVolume : α
  colorSlider : α
  bassGain : α
  trebleGain : α
  lowShelfL : Biquad α
  lowShelfR : Biquad α
  highShelfL : Biquad α
  highShelfR : Biquad α

/-- The constructor `NewMixer`. -/
def NewMixer (M : Math α) (newRand : Int → Rng α) (int63 : Int) (sampleRate : Int) : Mixer α :=
  { noiseGen := NewGenerator newRand int63 sampleRate
    sampleRate := sampleRate
    power := false
    masterVolume := 0.5
    targetVolume := 0.5
    colorSlider := 25
    bassGain := 0
    trebleGain := 0
    lowShelfL := NewShelf M LowShelf 300 0 (sampleRate : α)
    lowShelfR := NewShelf M LowShelf 300 0 (sampleRate : α)
    highShelfL := NewShelf M HighShelf 3000 0 (sampleRate : α)
    highShelfR := NewShelf M HighShelf 3000 0 (sampleRate : α) }

def Mixer.SetPower (m : Mixer α) (on' : Bool) : Mixer α :=
  { m with power := on' }

def Mixer.GetPower (m : Mixer α) : Bool :=
  m.power

def Mixer.SetMasterVolume (m : Mixer α) (volume : α) : Mixer α :=
  { m with targetVolume := max 0 (min 1 volume) }

def Mixer.GetMasterVolume (m : Mixer α) : α :=
  m.targetVolume

def Mixer.SetColor (m : Mixer α) (value : α) : Mixer α :=
  { m with colorSlider := max 0 (min 100 value) }

def Mixer.GetColor (m : Mixer α) : α :=
  m.colorSlider

/-- The function `sliderToGainDB`. -/
def sliderToGainDB (slider : α) : α :=
  slider / 100.0 * 12.0

def Mixer.SetBass (M : Math α) (m : Mixer α) (value : α) : Mixer α :=
  let bassGain := max (-100) (min 100 value)
  let gainDB := sliderToGainDB bassGain
  { m with
    bassGain := bassGain
    lowShelfL := m.lowShelfL.UpdateGain M gainDB
    lowShelfR := m.lowShelfR.UpdateGain M gainDB }

def Mixer.GetBass (m : Mixer α) : α :=
  m.bassGain

def Mixer.SetTreble (M : Math α) (m : Mixer α) (value : α) : Mixer α :=
  let trebleGain := max (-100) (min 100 value)
  let gainDB := sliderToGainDB trebleGain
  { m with
    trebleGain := trebleGain
    highShelfL := m.highShelfL.UpdateGain M gainDB
    highShelfR := m.highShelfR.UpdateGain M gainDB }

def Mixer.GetTreble (m : Mixer α) : α :=
  m.trebleGain

def Mixer.ReseedRNG (newRand : Int → Rng α) (m : Mixer α) (seed : Int) : Mixer α :=
  { m with noiseGen := m.noiseGen.Reseed newRand seed }

/-- The builtin `copy(dst, src)`: the first `min(len(dst), len(src))` elements of `dst` are
overwritten by those of `src`. -/
def copy (dst src : List α) : List α :=
  src.take dst.length ++ dst.drop src.length

/-- The body of the loop of the power-off path of `Mix`, on `masterVolume`. -/
def decayStep (masterVolume : α) : α :=
  masterVolume + (0 - masterVolume) * 0.001

/-- The body of the last loop of `Mix` at index `i`, on the pair `(masterVolume, result)`. -/
def volumeStep (targetVolume : α) (left right : List α) (s : α × List α) (i : Nat) :
    α × List α :=
  let masterVolume := s.1 + (targetVolume - s.1) * 0.001
  let result := s.2.set (i * 2) (max (-1) (min 1 (left.getD i 0 * masterVolume)))
  let result := result.set (i * 2 + 1) (max (-1) (min 1 (right.getD i 0 * masterVolume)))
  (masterVolume, result)

/-- The method `(*Mixer).Mix`: the returned block and the mixer afterwards. -/
def Mixer.Mix (m : Mixer α) (samples : Nat) : List α × Mixer α :=
  let result : List α := List.replicate (samples * 2) 0
  if !m.power then
    let mv := (List.range samples).foldl (fun v _ => decayStep v) m.masterVolume
    (result, { m with masterVolume := mv })
  else
    let mono := m.noiseGen.GenerateBlended m.colorSlider samples 1.0
    let left := copy (List.replicate samples 0) mono.1
    let right := copy (List.replicate samples 0) mono.1
    let lowL := m.lowShelfL.Process left
    let highL := m.highShelfL.Process lowL.2
    let lowR := m.lowShelfR.Process right
    let highR := m.highShelfR.Process lowR.2
    let s := (List.range samples).foldl (volumeStep m.targetVolume highL.2 highR.2)
      (m.masterVolume, result)
    (s.2,
      { m with
        noiseGen := mono.2
        lowShelfL := lowL.1
        highShelfL := highL.1
        lowShelfR := lowR.1
        highShelfR := highR.1
        masterVolume := s.1 })

/-! ## Definitions used to state the properties -/

/-- The mixer states that `NewMixer` followed by any finite sequence of `SetPower`,
`SetMasterVolume`, `SetColor`, `SetBass`, `SetTreble`, `ReseedRNG` and `Mix` calls can produce. -/
inductive Reachable (M : Math α) (newRand : Int → Rng α) : Mixer α → Prop
  | newMixer (int63 sampleRate : Int) : Reachable M newRand (NewMixer M newRand int63 sampleRate)
  | setPower {m : Mixer α} (b : Bool) : Reachable M newRand m → Reachable M newRand (m.SetPower b)
  | setMasterVolume {m : Mixer α} (v : α) :
      Reachable M newRand m → Reachable M newRand (m.SetMasterVolume v)
  | setColor {m : Mixer α} (v : α) : Reachable M newRand m → Reachable M newRand (m.SetColor v)
  | setBass {m : Mixer α} (v : α) : Reachable M newRand m → Reachable M newRand (m.SetBass M v)
  | setTreble {m : Mixer α} (v : α) :
      Reachable M newRand m → Reachable M newRand (m.SetTreble M v)
  | reseedRNG {m : Mixer α} (seed : Int) :
      Reachable M newRand m → Reachable M newRand (m.ReseedRNG newRand seed)
  | mix {m : Mixer α} (n : Nat) : Reachable M newRand m → Reachable M newRand (m.Mix n).2

/-- The mixer after successive calls `Mix(n)` for the `n` of the list, in order. -/
def mixAll (m : Mixer α) (blocks : List Nat) : Mixer α :=
  blocks.foldl (fun m n => (m.Mix n).2) m

/-- The value `x` lies in the closed interval whose end points are `a` and `b`. -/
def Between (a b x : α) : Prop :=
  min a b ≤ x ∧ x ≤ max a b

/-- The consecutive pairs `(colorAnchors[i], colorAnchors[i+1])` that the loop of
`GenerateBlended` visits. -/
def anchorPairs : List ((α × Color) × (α × Color)) :=
  List.zip colorAnchors (List.tail colorAnchors)

/-- The accumulators of the primary state slot of a colour (none for white). -/
def primarySlot (g : Generator α) (color : Color) : List α :=
  if color = Pink then
    [g.pink.s0, g.pink.s1, g.pink.s2, g.pink.s3, g.pink.s4, g.pink.s5, g.pink.s6]
  else if color = Brown then [g.brown]
  else if color = Blue then [g.bluePrev]
  else if color = Violet then [g.violetPrevWhite, g.violetPrevBlue]
  else []

/-- Successive `Process` calls of one filter on the buffers of the list, in order: the filter
afterwards and the buffers as overwritten. -/
def processAll (b : Biquad α) : List (List α) → Biquad α × List (List α)
  | [] => (b, [])
  | buf :: rest =>
    let r := b.Process buf
    let rs := processAll r.1 rest
    (rs.1, r.2 :: rs.2)

/-- The four delay registers of a filter. -/
def Biquad.delays (b : Biquad α) : α × α × α × α :=
  (b.x1, b.x2, b.y1, b.y2)

/-- The five normalised coefficients of a filter. -/
def Biquad.coefficients (b : Biquad α) : α × α × α × α × α :=
  (b.b0, b.b1, b.b2, b.a1, b.a2)

/-- Truncated-series rational stand-ins for the `math` functions (exact at `Pow b 0`,
`Sqrt 1`, `Cos 0` and `Sin 0`), for running the model on concrete inputs. -/
def ratMath : Math ℚ :=
  { Pow := fun b e => 1 + e * (b - 1)
    Pi := 355 / 113
    Cos := fun x => 1 - x ^ 2 / 2 + x ^ 4 / 24
    Sin := fun x => x - x ^ 3 / 6 + x ^ 5 / 120
    Sqrt := fun x => (1 + x) / 2
    Sqrt2 := 99 / 70 }

/-- A small deterministic random source over `ℚ` with values in `[0, 1)`, for running the
model on concrete inputs. -/
def ratRand (seed : Int) : Rng ℚ :=
  { stream := fun i => ((seed.toNat + 3 * i) % 8 : Nat) / 8
    pos := 0 }

/-- Every white sample `rng.Float64()*2 - 1` that the source can deliver lies in `[-1, 1]`. -/
def WhiteInRange (r : Rng α) : Prop :=
  ∀ i : Nat, -1 ≤ r.stream i * 2 - 1 ∧ r.stream i * 2 - 1 ≤ 1

/-- The generator states that `NewGenerator` followed by any finite sequence of `Generate`,
`GenerateBlended` and `Reseed` calls can produce. -/
inductive GenReachable (newRand : Int → Rng α) : Generator α → Prop
  | newGenerator (int63 sampleRate : Int) :
      GenReachable newRand (NewGenerator newRand int63 sampleRate)
  | generate {g : Generator α} (c : Color) (n : Nat) (v : α) :
      GenReachable newRand g → GenReachable newRand (g.Generate c n v).2
  | generateBlended {g : Generator α} (s : α) (n : Nat) (v : α) :
      GenReachable newRand g → GenReachable newRand (g.GenerateBlended s n v).2
  | reseed {g : Generator α} (seed : Int) :
      GenReachable newRand g → GenReachable newRand (g.Reseed newRand seed)

/-- All seven entries of a `[7]float64` lie in `[-1, 1]`. -/
def Arr7.InUnit (a : Arr7 α) : Prop :=
  |a.s0| ≤ 1 ∧ |a.s1| ≤ 1 ∧ |a.s2| ≤ 1 ∧ |a.s3| ≤ 1 ∧ |a.s4| ≤ 1 ∧ |a.s5| ≤ 1 ∧ |a.s6| ≤ 1

/-- The ranges that white samples in `[-1, 1]` keep the accumulators of both slots in: the
pink, brown and previous-white values in `[-1, 1]`, the previous first difference of violet
in `[-2, 2]`. -/
def Generator.SlotsInRange (g : Generator α) : Prop :=
  (g.pink.InUnit ∧ |g.brown| ≤ 1 ∧ |g.bluePrev| ≤ 1 ∧ |g.violetPrevWhite| ≤ 1 ∧
    |g.violetPrevBlue| ≤ 2) ∧
  (g.pink2.InUnit ∧ |g.brown2| ≤ 1 ∧ |g.bluePrev2| ≤ 1 ∧ |g.violetPrevWhite2| ≤ 1 ∧
    |g.violetPrevBlue2| ≤ 2)

/-- A powered mixer at the start of a volume ramp: `masterVolume = 0`, `targetVolume = 1`. -/
def rampMixer : Mixer ℚ :=
  { NewMixer ratMath ratRand 1 44100 with power := true, masterVolume := 0, targetVolume := 1 }

end PinkNoise

/-! ## The mixer: output range, silence when off, setter clamping -/

namespace PinkNoise

variable {α : Type} [LinearOrderedField α]

theorem volumeStep_snd_length (T : α) (l r : List α) (s : α × List α) (i : Nat) :
    (volumeStep T l r s i).2.length = s.2.length := by
  simp [volumeStep]

theorem clamp_mem (x : α) : -1 ≤ max (-1) (min 1 x) ∧ max (-1) (min 1 x) ≤ 1 :=
  ⟨le_max_left _ _, max_le (by norm_num) (min_le_left _ _)⟩

theorem volumeStep_snd_mem (T : α) (l r : List α) (s : α × List α) (i : Nat)
    (h : ∀ x ∈ s.2, -1 ≤ x ∧ x ≤ 1) : ∀ x ∈ (volumeStep T l r s i).2, -1 ≤ x ∧ x ≤ 1 := by
  intro x hx
  simp only [volumeStep] at hx
  rcases List.mem_or_eq_of_mem_set hx with h1 | h1
  · rcases List.mem_or_eq_of_mem_set h1 with h2 | h2
    · exact h x h2
    · rw [h2]; exact clamp_mem _
  · rw [h1]; exact clamp_mem _

theorem foldl_volumeStep_length (T : α) (l r : List α) (is : List Nat) (s : α × List α) :
    (is.foldl (volumeStep T l r) s).2.length = s.2.length := by
  induction is generalizing s with
  | nil => rfl
  | cons i is ih => rw [List.foldl_cons, ih, volumeStep_snd_length]

theorem foldl_volumeStep_mem (T : α) (l r : List α) (is : List Nat) (s : α × List α)
    (h : ∀ x ∈ s.2, -1 ≤ x ∧ x ≤ 1) :
    ∀ x ∈ (is.foldl (volumeStep T l r) s).2, -1 ≤ x ∧ x ≤ 1 := by
  induction is generalizing s with
  | nil => exact h
  | cons i is ih =>
    rw [List.foldl_cons]
    exact ih _ (volumeStep_snd_mem T l r s i h)

theorem Mix_length (m : Mixer α) (n : Nat) : (m.Mix n).1.length = 2 * n := by
  unfold Mixer.Mix
  cases hp : m.power
  · simp [Nat.mul_comm]
  · simp [foldl_volumeStep_length, Nat.mul_comm]

theorem Mix_mem (m : Mixer α) (n : Nat) : ∀ x ∈ (m.Mix n).1, -1 ≤ x ∧ x ≤ 1 := by
  have h0 : ∀ x ∈ List.replicate (n * 2) (0 : α), -1 ≤ x ∧ x ≤ 1 := by
    intro x hx
    rw [List.eq_of_mem_replicate hx]
    constructor <;> norm_num
  unfold Mixer.Mix
  cases hp : m.power
  · simp
  · simp only [Bool.not_true, Bool.false_eq_true, if_false]
    exact foldl_volumeStep_mem _ _ _ _ _ h0

theorem Mix_power_off (m : Mixer α) (h : m.power = false) (n : Nat) :
    m.Mix n = (List.replicate (n * 2) 0,
      { m with masterVolume := (List.range n).foldl (fun v _ => decayStep v) m.masterVolume }) := by
  simp [Mixer.Mix, h]

/-- C1: in every mixer state reachable from `NewMixer` by `SetPower`, `SetMasterVolume`,
`SetColor`, `SetBass`, `SetTreble`, `ReseedRNG` and `Mix` calls, `Mix(n)` returns exactly
`2*n` values, each of them in the closed interval `[-1, 1]`. -/
theorem mix_output_length_and_range (M : Math α) (newRand : Int → Rng α) (m : Mixer α)
    (_h : Reachable M newRand m) (n : Nat) :
    (m.Mix n).1.length = 2 * n ∧ ∀ x ∈ (m.Mix n).1, -1 ≤ x ∧ x ≤ 1 :=
  ⟨Mix_length m n, Mix_mem m n⟩

/-- Witness for C1: the state reached by constructing a mixer at 44100 Hz, switching it on,
setting bass to 50 and rendering 4 samples is reachable, and a further `Mix(3)` from it
returns 6 values in `[-1, 1]`. -/
theorem mix_output_length_and_range_witness :
    Reachable ratMath ratRand
        ((((NewMixer ratMath ratRand 1 44100).SetPower true).SetBass ratMath 50).Mix 4).2 ∧
      (((((NewMixer ratMath ratRand 1 44100).SetPower true).SetBass ratMath 50).Mix 4).2.Mix
          3).1.length = 2 * 3 ∧
      ∀ x ∈ (((((NewMixer ratMath ratRand 1 44100).SetPower true).SetBass ratMath 50).Mix
          4).2.Mix 3).1, -1 ≤ x ∧ x ≤ 1 :=
  ⟨.mix 4 (.setBass 50 (.setPower true (.newMixer 1 44100))),
    mix_output_length_and_range ratMath ratRand _
      (.mix 4 (.setBass 50 (.setPower true (.newMixer 1 44100)))) 3⟩

/-- C2: with power off, `Mix(n)` returns exactly `2*n` values, all equal to zero, whatever
`masterVolume` and the other fields of the mixer are. -/
theorem mix_power_off_silent (m : Mixer α) (h : m.power = false) (n : Nat) :
    (m.Mix n).1.length = 2 * n ∧ (m.Mix n).1 = List.replicate (2 * n) 0 := by
  rw [Mix_power_off m h n]
  simp [Nat.mul_comm]

/-- Witness for C2: a freshly constructed mixer (power off) whose volume was set to 1 returns
six zeros for `Mix(3)`. -/
theorem mix_power_off_silent_witness :
    ((NewMixer ratMath ratRand 1 44100).SetMasterVolume 1).power = false ∧
      (((NewMixer ratMath ratRand 1 44100).SetMasterVolume 1).Mix 3).1.length = 2 * 3 ∧
      (((NewMixer ratMath ratRand 1 44100).SetMasterVolume 1).Mix 3).1
        = List.replicate (2 * 3) 0 :=
  ⟨rfl, mix_power_off_silent _ rfl 3⟩

theorem clamp_comm (lo hi v : α) (h : lo ≤ hi) : max lo (min hi v) = min hi (max lo v) := by
  rcases le_total v lo with h1 | h1
  · rw [min_eq_right (h1.trans h), max_eq_left h1, min_eq_right h]
  · rw [max_eq_right h1]
    exact max_eq_right (le_min h h1)

/-- C3: every setter stores its argument clamped to the valid domain and the matching getter
returns it: `SetColor` to `[0, 100]`, `SetBass` and `SetTreble` to `[-100, 100]`,
`SetMasterVolume` to `[0, 1]`; in particular `SetColor(-5)` gives 0, `SetColor(150)` gives
100, `SetBass(200)` gives 100, `SetMasterVolume(-1)` gives 0 and `SetMasterVolume(2)` gives 1. -/
theorem setters_clamp (M : Math α) (m : Mixer α) :
    (∀ v : α, (m.SetColor v).GetColor = min 100 (max 0 v)) ∧
    (∀ v : α, (m.SetBass M v).GetBass = min 100 (max (-100) v)) ∧
    (∀ v : α, (m.SetTreble M v).GetTreble = min 100 (max (-100) v)) ∧
    (∀ v : α, (m.SetMasterVolume v).GetMasterVolume = min 1 (max 0 v)) ∧
    (m.SetColor (-5)).GetColor = 0 ∧
    (m.SetColor 150).GetColor = 100 ∧
    (m.SetBass M 200).GetBass = 100 ∧
    (m.SetMasterVolume (-1)).GetMasterVolume = 0 ∧
    (m.SetMasterVolume 2).GetMasterVolume = 1 := by
  refine ⟨fun v => clamp_comm 0 100 v (by norm_num), fun v => clamp_comm (-100) 100 v (by norm_num),
    fun v => clamp_comm (-100) 100 v (by norm_num), fun v => clamp_comm 0 1 v (by norm_num),
    ?_, ?_, ?_, ?_, ?_⟩ <;>
  simp only [Mixer.SetColor, Mixer.GetColor, Mixer.SetBass, Mixer.GetBass, Mixer.SetMasterVolume,
    Mixer.GetMasterVolume] <;> norm_num

/-! ## Volume smoothing -/

theorem foldl_volumeStep_fst (T : α) (l r : List α) (is : List Nat) (s : α × List α) :
    (is.foldl (volumeStep T l r) s).1 = T + (s.1 - T) * 0.999 ^ is.length := by
  induction is generalizing s with
  | nil => simp
  | cons i is ih =>
    rw [List.foldl_cons, ih]
    simp only [volumeStep, List.length_cons, pow_succ]
    ring_nf

theorem foldl_decayStep (is : List Nat) (v : α) :
    is.foldl (fun v _ => decayStep v) v = v * 0.999 ^ is.length := by
  induction is generalizing v with
  | nil => simp
  | cons i is ih =>
    rw [List.foldl_cons, ih]
    simp only [decayStep, List.length_cons, pow_succ]
    ring_nf

theorem Mix_power_on_masterVolume (m : Mixer α) (h : m.power = true) (n : Nat) :
    (m.Mix n).2.masterVolume
      = m.targetVolume + (m.masterVolume - m.targetVolume) * 0.999 ^ n := by
  simp [Mixer.Mix, h, foldl_volumeStep_fst]

theorem Mix_power_off_masterVolume (m : Mixer α) (h : m.power = false) (n : Nat) :
    (m.Mix n).2.masterVolume = m.masterVolume * 0.999 ^ n := by
  simp [Mixer.Mix, h, foldl_decayStep]

theorem Mix_power (m : Mixer α) (n : Nat) : (m.Mix n).2.power = m.power := by
  unfold Mixer.Mix
  cases hp : m.power <;> simp [hp]

theorem Mix_targetVolume (m : Mixer α) (n : Nat) : (m.Mix n).2.targetVolume = m.targetVolume := by
  unfold Mixer.Mix
  cases hp : m.power <;> simp

theorem mixAll_power (m : Mixer α) (blocks : List Nat) : (mixAll m blocks).power = m.power := by
  induction blocks generalizing m with
  | nil => rfl
  | cons n ns ih =>
    simp only [mixAll, List.foldl_cons] at ih ⊢
    rw [ih, Mix_power]

theorem mixAll_targetVolume (m : Mixer α) (blocks : List Nat) :
    (mixAll m blocks).targetVolume = m.targetVolume := by
  induction blocks generalizing m with
  | nil => rfl
  | cons n ns ih =>
    simp only [mixAll, List.foldl_cons] at ih ⊢
    rw [ih, Mix_targetVolume]

theorem mixAll_power_on_masterVolume (m : Mixer α) (h : m.power = true) (blocks : List Nat) :
    (mixAll m blocks).masterVolume
      = m.targetVolume + (m.masterVolume - m.targetVolume) * 0.999 ^ blocks.sum := by
  induction blocks generalizing m with
  | nil => simp [mixAll]
  | cons n ns ih =>
    have h1 : (m.Mix n).2.power = true := by rw [Mix_power, h]
    have := ih (m.Mix n).2 h1
    simp only [mixAll, List.foldl_cons] at this ⊢
    rw [this, Mix_targetVolume, Mix_power_on_masterVolume m h, List.sum_cons, pow_add]
    ring

theorem smoothing_bounds_1000 : (0.632 : α) < 1 - (1 - 0.001) ^ 1000 ∧
    (1 : α) - (1 - 0.001) ^ 1000 < 0.633 := by
  constructor <;> norm_num

/-- C4: with power on, rendering a total of `N` samples from `masterVolume = m0` with fixed
`targetVolume = T` leaves `masterVolume = T + (m0 - T) * 0.999^N`, however the `N` samples are
split into `Mix` calls; from `masterVolume = 0` and `targetVolume = 1`, `N` single-sample
renders leave `masterVolume = 1 - (1 - 0.001)^N`, which for `N = 1000` lies strictly between
0.632 and 0.633. -/
theorem volume_exponential_convergence (m : Mixer α) (hp : m.power = true) :
    (∀ blocks : List Nat, (mixAll m blocks).masterVolume
        = m.targetVolume + (m.masterVolume - m.targetVolume) * 0.999 ^ blocks.sum) ∧
    (m.masterVolume = 0 → m.targetVolume = 1 →
      (∀ N : Nat, (mixAll m (List.replicate N 1)).masterVolume = 1 - (1 - 0.001) ^ N) ∧
      0.632 < (mixAll m (List.replicate 1000 1)).masterVolume ∧
      (mixAll m (List.replicate 1000 1)).masterVolume < 0.633) := by
  refine ⟨mixAll_power_on_masterVolume m hp, fun h0 h1 => ?_⟩
  have key : ∀ N : Nat, (mixAll m (List.replicate N 1)).masterVolume = 1 - (1 - 0.001) ^ N := by
    intro N
    rw [mixAll_power_on_masterVolume m hp, h0, h1]
    simp only [List.sum_replicate, smul_eq_mul, mul_one]
    have e : (0.999 : α) = 1 - 0.001 := by norm_num
    rw [e]
    ring
  refine ⟨key, ?_, ?_⟩
  · rw [key]; exact smoothing_bounds_1000.1
  · rw [key]; exact smoothing_bounds_1000.2

/-- Witness for C4: a powered mixer with `masterVolume = 0` and `targetVolume = 1`. -/
theorem volume_exponential_convergence_witness :
    (rampMixer.power = true ∧ rampMixer.masterVolume = 0 ∧ rampMixer.targetVolume = 1) ∧
    (∀ blocks : List Nat, (mixAll rampMixer blocks).masterVolume
        = rampMixer.targetVolume
          + (rampMixer.masterVolume - rampMixer.targetVolume) * 0.999 ^ blocks.sum) ∧
    (∀ N : Nat, (mixAll rampMixer (List.replicate N 1)).masterVolume = 1 - (1 - 0.001) ^ N) ∧
    0.632 < (mixAll rampMixer (List.replicate 1000 1)).masterVolume ∧
    (mixAll rampMixer (List.replicate 1000 1)).masterVolume < 0.633 :=
  ⟨⟨rfl, rfl, rfl⟩, (volume_exponential_convergence rampMixer rfl).1,
    (volume_exponential_convergence rampMixer rfl).2 rfl rfl⟩

theorem pow_999_mem (n : Nat) : (0 : α) ≤ 0.999 ^ n ∧ (0.999 : α) ^ n ≤ 1 :=
  ⟨pow_nonneg (by norm_num) n, pow_le_one₀ (by norm_num) (by norm_num)⟩

theorem between_convex (v T c : α) (h0 : 0 ≤ c) (h1 : c ≤ 1) :
    Between v T (T + (v - T) * c) := by
  unfold Between
  have hv := min_le_left v T
  have hT := min_le_right v T
  have hv' := le_max_left v T
  have hT' := le_max_right v T
  have h1' : 0 ≤ 1 - c := by linarith
  constructor
  · nlinarith [mul_nonneg h0 (sub_nonneg.2 hv), mul_nonneg h1' (sub_nonneg.2 hT)]
  · nlinarith [mul_nonneg h0 (sub_nonneg.2 hv'), mul_nonneg h1' (sub_nonneg.2 hT')]

theorem abs_convex (v T c : α) (h0 : 0 ≤ c) (h1 : c ≤ 1) :
    |T - (T + (v - T) * c)| ≤ |T - v| := by
  have : T - (T + (v - T) * c) = (T - v) * c := by ring
  rw [this, abs_mul, abs_of_nonneg h0]
  exact mul_le_of_le_one_right (abs_nonneg _) h1

/-- C5, counterexample: a freshly constructed mixer (power off) whose volume was set to 1 has
`masterVolume = 0.5` and `targetVolume = 1`; after `Mix(1)` its `masterVolume` is 0.4995,
outside the interval between 0.5 and 1 and farther from `targetVolume` than before. -/
theorem masterVolume_toward_target_counterexample :
    (((NewMixer ratMath ratRand 1 44100).SetMasterVolume 1).Mix 1).2.masterVolume = 0.4995 ∧
    ¬ Between ((NewMixer ratMath ratRand 1 44100).SetMasterVolume 1).masterVolume
        ((NewMixer ratMath ratRand 1 44100).SetMasterVolume 1).targetVolume
        (((NewMixer ratMath ratRand 1 44100).SetMasterVolume 1).Mix 1).2.masterVolume ∧
    ¬ |((NewMixer ratMath ratRand 1 44100).SetMasterVolume 1).targetVolume
          - (((NewMixer ratMath ratRand 1 44100).SetMasterVolume 1).Mix 1).2.masterVolume|
        ≤ |((NewMixer ratMath ratRand 1 44100).SetMasterVolume 1).targetVolume
          - ((NewMixer ratMath ratRand 1 44100).SetMasterVolume 1).masterVolume| := by
  rw [Mix_power_off_masterVolume _ rfl]
  simp only [NewMixer, Mixer.SetMasterVolume, Between]
  norm_num [abs_of_nonneg]

/-- C5, amended: for every mixer state and every `Mix(n)`, with power on `masterVolume` after
the call lies in the closed interval between its value before the call and `targetVolume`,
and its distance to `targetVolume` does not increase; with power off it lies in the closed
interval between its value before the call and 0, and its absolute value does not increase. -/
theorem masterVolume_moves_monotonically (m : Mixer α) (n : Nat) :
    (m.power = true →
      Between m.masterVolume m.targetVolume (m.Mix n).2.masterVolume ∧
      |m.targetVolume - (m.Mix n).2.masterVolume| ≤ |m.targetVolume - m.masterVolume|) ∧
    (m.power = false →
      Between m.masterVolume 0 (m.Mix n).2.masterVolume ∧
      |0 - (m.Mix n).2.masterVolume| ≤ |0 - m.masterVolume|) := by
  obtain ⟨h0, h1⟩ := @pow_999_mem α _ n
  constructor
  · intro hp
    rw [Mix_power_on_masterVolume m hp]
    exact ⟨between_convex _ _ _ h0 h1, abs_convex _ _ _ h0 h1⟩
  · intro hp
    have e : (m.Mix n).2.masterVolume = 0 + (m.masterVolume - 0) * 0.999 ^ n := by
      rw [Mix_power_off_masterVolume m hp]; ring
    rw [e]
    exact ⟨between_convex _ _ _ h0 h1, abs_convex _ _ _ h0 h1⟩

/-- Witness for C5 (amended): the powered mixer `rampMixer` and the unpowered mixer obtained
from it by `SetPower(false)`, each rendering 5 samples. -/
theorem masterVolume_moves_monotonically_witness :
    (rampMixer.power = true ∧
      Between rampMixer.masterVolume rampMixer.targetVolume (rampMixer.Mix 5).2.masterVolume ∧
      |rampMixer.targetVolume - (rampMixer.Mix 5).2.masterVolume|
        ≤ |rampMixer.targetVolume - rampMixer.masterVolume|) ∧
    ((rampMixer.SetPower false).power = false ∧
      Between (rampMixer.SetPower false).masterVolume 0
        ((rampMixer.SetPower false).Mix 5).2.masterVolume ∧
      |0 - ((rampMixer.SetPower false).Mix 5).2.masterVolume|
        ≤ |0 - (rampMixer.SetPower false).masterVolume|) :=
  ⟨⟨rfl, (masterVolume_moves_monotonically rampMixer 5).1 rfl⟩,
    ⟨rfl, (masterVolume_moves_monotonically (rampMixer.SetPower false) 5).2 rfl⟩⟩

/-! ## The noise generator: anchors, continuity and crossfade -/

theorem blendLoop_hit (g : Generator α) (s : α) (n : Nat) (v : α) (lo hi : α × Color)
    (rest : List (α × Color)) (h1 : lo.1 ≤ s) (h2 : s ≤ hi.1) :
    blendLoop g s n v (lo :: hi :: rest) = blendLoop g s n v [lo, hi] := by
  simp [blendLoop, h1, h2]

theorem blendLoop_miss (g : Generator α) (s : α) (n : Nat) (v : α) (lo hi : α × Color)
    (rest : List (α × Color)) (h : hi.1 < s) :
    blendLoop g s n v (lo :: hi :: rest) = blendLoop g s n v (hi :: rest) := by
  simp [blendLoop, not_le.2 h]

theorem blendLoop_pair_lo (g : Generator α) (s : α) (n : Nat) (v : α) (lo hi : α × Color)
    (h1 : lo.1 ≤ s) (h2 : s ≤ hi.1) (ht : (s - lo.1) / (hi.1 - lo.1) ≤ 0.001) :
    blendLoop g s n v [lo, hi] = g.generateColor lo.2 true n v := by
  simp only [blendLoop, ge_iff_le, h1, h2, and_self, if_true, ht]

theorem blendLoop_pair_hi (g : Generator α) (s : α) (n : Nat) (v : α) (lo hi : α × Color)
    (h1 : lo.1 ≤ s) (h2 : s ≤ hi.1) (ht : 0.999 ≤ (s - lo.1) / (hi.1 - lo.1)) :
    blendLoop g s n v [lo, hi] = g.generateColor hi.2 true n v := by
  have ht' : ¬ (s - lo.1) / (hi.1 - lo.1) ≤ 0.001 := by
    intro h
    have : (0.999 : α) ≤ 0.001 := ht.trans h
    norm_num at this
  simp only [blendLoop, ge_iff_le, h1, h2, and_self, if_true, ht, ht', if_false]

theorem blendLoop_pair_mid (g : Generator α) (s : α) (n : Nat) (v : α) (lo hi : α × Color)
    (h1 : lo.1 ≤ s) (h2 : s ≤ hi.1) (ht1 : 0.001 < (s - lo.1) / (hi.1 - lo.1))
    (ht2 : (s - lo.1) / (hi.1 - lo.1) < 0.999) :
    blendLoop g s n v [lo, hi]
      = (crossfade (g.generateColor lo.2 true n v).1
            ((g.generateColor lo.2 true n v).2.generateColor hi.2 false n v).1
            ((s - lo.1) / (hi.1 - lo.1)) n,
          ((g.generateColor lo.2 true n v).2.generateColor hi.2 false n v).2) := by
  simp only [blendLoop, ge_iff_le, h1, h2, and_self, if_true, not_le.2 ht1, not_le.2 ht2,
    if_false]

theorem mem_anchorPairs (pr : (α × Color) × (α × Color)) (h : pr ∈ anchorPairs) :
    pr = ((0, Brown), (25, Pink)) ∨ pr = ((25, Pink), (50, White)) ∨
    pr = ((50, White), (75, Blue)) ∨ pr = ((75, Blue), (100, Violet)) := by
  simpa [anchorPairs, colorAnchors] using h

theorem anchorPairs_width (pr : (α × Color) × (α × Color)) (h : pr ∈ anchorPairs) :
    pr.2.1 - pr.1.1 = 25 ∧ 0 ≤ pr.1.1 ∧ pr.2.1 ≤ 100 := by
  rcases mem_anchorPairs pr h with rfl | rfl | rfl | rfl <;> norm_num

theorem GenerateBlended_of_pair (g : Generator α) (s : α) (n : Nat) (v : α)
    (pr : (α × Color) × (α × Color)) (h : pr ∈ anchorPairs) (h1 : pr.1.1 < s)
    (h2 : s ≤ pr.2.1) :
    g.GenerateBlended s n v = blendLoop g s n v [pr.1, pr.2] := by
  obtain ⟨-, hlo, hhi⟩ := anchorPairs_width pr h
  have hs0 : ¬ s ≤ 0 := not_le.2 (hlo.trans_lt h1)
  rcases eq_or_lt_of_le (h2.trans hhi) with h100 | h100
  · have e : pr = ((75, Blue), (100, Violet)) := by
      rcases mem_anchorPairs pr h with rfl | rfl | rfl | rfl <;> norm_num [h100] at h2 ⊢
    subst e
    rw [blendLoop_pair_hi g s n v _ _ h1.le h2 (by rw [h100]; norm_num)]
    simp [Generator.GenerateBlended, hs0, h100]
  · have e : g.GenerateBlended s n v = blendLoop g s n v colorAnchors := by
      simp [Generator.GenerateBlended, hs0, not_le.2 h100]
    rw [e, colorAnchors]
    rcases mem_anchorPairs pr h with rfl | rfl | rfl | rfl
    · rw [blendLoop_hit _ _ _ _ _ _ _ h1.le h2]
    · rw [blendLoop_miss _ _ _ _ _ _ _ h1, blendLoop_hit _ _ _ _ _ _ _ h1.le h2]
    · have h25 : (25 : α) < s := lt_trans (by norm_num) h1
      rw [blendLoop_miss _ _ _ _ _ _ _ h25, blendLoop_miss _ _ _ _ _ _ _ h1,
        blendLoop_hit _ _ _ _ _ _ _ h1.le h2]
    · have h25 : (25 : α) < s := lt_trans (by norm_num) h1
      have h50 : (50 : α) < s := lt_trans (by norm_num) h1
      rw [blendLoop_miss _ _ _ _ _ _ _ h25, blendLoop_miss _ _ _ _ _ _ _ h50,
        blendLoop_miss _ _ _ _ _ _ _ h1, blendLoop_hit _ _ _ _ _ _ _ h1.le h2]

theorem GenerateBlended_above_lo (g : Generator α) (s : α) (n : Nat) (v : α)
    (pr : (α × Color) × (α × Color)) (h : pr ∈ anchorPairs) (h1 : pr.1.1 < s)
    (h2 : s ≤ pr.1.1 + 0.025) : g.GenerateBlended s n v = g.Generate pr.1.2 n v := by
  obtain ⟨hw, -, -⟩ := anchorPairs_width pr h
  have h3 : s ≤ pr.2.1 := by
    have : (0.025 : α) ≤ 25 := by norm_num
    linarith
  rw [GenerateBlended_of_pair g s n v pr h h1 h3, Generator.Generate]
  apply blendLoop_pair_lo g s n v _ _ h1.le h3
  rw [hw, div_le_iff₀ (by norm_num)]
  norm_num
  linarith

theorem GenerateBlended_below_hi (g : Generator α) (s : α) (n : Nat) (v : α)
    (pr : (α × Color) × (α × Color)) (h : pr ∈ anchorPairs) (h1 : pr.2.1 - 0.025 ≤ s)
    (h2 : s ≤ pr.2.1) : g.GenerateBlended s n v = g.Generate pr.2.2 n v := by
  obtain ⟨hw, -, -⟩ := anchorPairs_width pr h
  have h3 : pr.1.1 < s := by
    have : (0.025 : α) < 25 := by norm_num
    linarith
  rw [GenerateBlended_of_pair g s n v pr h h3 h2, Generator.Generate]
  apply blendLoop_pair_hi g s n v _ _ h3.le h2
  rw [hw, le_div_iff₀ (by norm_num)]
  norm_num
  linarith

theorem GenerateBlended_near_anchor (g : Generator α) (n : Nat) (v : α) (pc : α × Color)
    (h : pc ∈ colorAnchors) (s : α) (hs : |s - pc.1| ≤ 0.025) :
    g.GenerateBlended s n v = g.Generate pc.2 n v := by
  obtain ⟨h1, h2⟩ := abs_le.1 hs
  simp only [colorAnchors, List.mem_cons, List.mem_singleton, List.not_mem_nil, or_false] at h
  rcases h with rfl | rfl | rfl | rfl | rfl
  · rcases le_or_lt s 0 with h0 | h0
    · simp [Generator.GenerateBlended, Generator.Generate, h0]
    · exact GenerateBlended_above_lo g s n v ((0, Brown), (25, Pink))
        (by simp [anchorPairs, colorAnchors]) h0 (by simpa using h2)
  · rcases le_or_lt s 25 with h0 | h0
    · exact GenerateBlended_below_hi g s n v ((0, Brown), (25, Pink))
        (by simp [anchorPairs, colorAnchors]) (by simp only; linarith) h0
    · exact GenerateBlended_above_lo g s n v ((25, Pink), (50, White))
        (by simp [anchorPairs, colorAnchors]) h0 (by simp only; linarith)
  · rcases le_or_lt s 50 with h0 | h0
    · exact GenerateBlended_below_hi g s n v ((25, Pink), (50, White))
        (by simp [anchorPairs, colorAnchors]) (by simp only; linarith) h0
    · exact GenerateBlended_above_lo g s n v ((50, White), (75, Blue))
        (by simp [anchorPairs, colorAnchors]) h0 (by simp only; linarith)
  · rcases le_or_lt s 75 with h0 | h0
    · exact GenerateBlended_below_hi g s n v ((50, White), (75, Blue))
        (by simp [anchorPairs, colorAnchors]) (by simp only; linarith) h0
    · exact GenerateBlended_above_lo g s n v ((75, Blue), (100, Violet))
        (by simp [anchorPairs, colorAnchors]) h0 (by simp only; linarith)
  · rcases le_or_lt 100 s with h0 | h0
    · have h00 : ¬ s ≤ 0 := not_le.2 (lt_of_lt_of_le (by norm_num) h0)
      simp [Generator.GenerateBlended, Generator.Generate, h0, h00]
    · exact GenerateBlended_below_hi g s n v ((75, Blue), (100, Violet))
        (by simp [anchorPairs, colorAnchors]) (by simp only; linarith) h0.le

/-- C6: the exact anchor values reproduce the pure colours: from any generator state, for any
sample count and volume, `GenerateBlended` at 0, 25, 50, 75 and 100 returns the same samples
and leaves the same generator state as `Generate` of Brown, Pink, White, Blue and Violet. -/
theorem anchors_reproduce_pure_colors (g : Generator α) (n : Nat) (v : α) :
    g.GenerateBlended 0 n v = g.Generate Brown n v ∧
    g.GenerateBlended 25 n v = g.Generate Pink n v ∧
    g.GenerateBlended 50 n v = g.Generate White n v ∧
    g.GenerateBlended 75 n v = g.Generate Blue n v ∧
    g.GenerateBlended 100 n v = g.Generate Violet n v := by
  refine ⟨?_, ?_, ?_, ?_, ?_⟩
  · exact GenerateBlended_near_anchor g n v (0, Brown) (by simp [colorAnchors]) 0 (by norm_num)
  · exact GenerateBlended_near_anchor g n v (25, Pink) (by simp [colorAnchors]) 25 (by norm_num)
  · exact GenerateBlended_near_anchor g n v (50, White) (by simp [colorAnchors]) 50 (by norm_num)
  · exact GenerateBlended_near_anchor g n v (75, Blue) (by simp [colorAnchors]) 75 (by norm_num)
  · exact GenerateBlended_near_anchor g n v (100, Violet) (by simp [colorAnchors]) 100
      (by norm_num)

theorem anchorPairs_mem (pr : (α × Color) × (α × Color)) (h : pr ∈ anchorPairs) :
    pr.1 ∈ (colorAnchors : List (α × Color)) ∧ pr.2 ∈ (colorAnchors : List (α × Color)) := by
  rcases mem_anchorPairs pr h with rfl | rfl | rfl | rfl <;> simp [colorAnchors]

/-- C7: blend continuity at the anchors. For each anchor position `p` with colour `c`, every
slider value within 0.025 of `p` (on either side) returns exactly the output and final state
of `Generate(c, n, v)` from the same generator state; in particular, for a bracketing anchor
pair, `t <= 0.001` returns the pure lo colour and `t >= 0.999` the pure hi colour, both on the
primary slot. Hence the output converges to the pure-colour output as the slider approaches
the anchor: for every `ε > 0` there is a `δ > 0` such that sliders within `δ` of `p` give
samples within `ε` of the pure-colour samples. -/
theorem blend_continuity (g : Generator α) (n : Nat) (v : α) :
    (∀ pc ∈ (colorAnchors : List (α × Color)), ∀ s : α, |s - pc.1| ≤ 0.025 →
        g.GenerateBlended s n v = g.Generate pc.2 n v) ∧
    (∀ pr ∈ (anchorPairs : List ((α × Color) × (α × Color))), ∀ s : α,
        pr.1.1 ≤ s → s ≤ pr.2.1 →
        ((s - pr.1.1) / (pr.2.1 - pr.1.1) ≤ 0.001 →
          g.GenerateBlended s n v = g.Generate pr.1.2 n v) ∧
        ((s - pr.1.1) / (pr.2.1 - pr.1.1) ≥ 0.999 →
          g.GenerateBlended s n v = g.Generate pr.2.2 n v)) ∧
    (∀ pc ∈ (colorAnchors : List (α × Color)), ∀ ε : α, 0 < ε → ∃ δ : α, 0 < δ ∧
        ∀ s : α, |s - pc.1| < δ →
          (g.GenerateBlended s n v).1.length = (g.Generate pc.2 n v).1.length ∧
          ∀ j : Nat, |(g.GenerateBlended s n v).1.getD j 0 - (g.Generate pc.2 n v).1.getD j 0|
            < ε) := by
  refine ⟨fun pc h s hs => GenerateBlended_near_anchor g n v pc h s hs, ?_, ?_⟩
  · intro pr hpr s h1 h2
    obtain ⟨hw, -, -⟩ := anchorPairs_width pr hpr
    obtain ⟨hm1, hm2⟩ := anchorPairs_mem pr hpr
    rw [hw]
    constructor
    · intro ht
      rw [div_le_iff₀ (by norm_num)] at ht
      apply GenerateBlended_near_anchor g n v pr.1 hm1 s
      rw [abs_of_nonneg (sub_nonneg.2 h1)]
      norm_num at ht ⊢
      linarith
    · intro ht
      rw [ge_iff_le, le_div_iff₀ (by norm_num)] at ht
      apply GenerateBlended_near_anchor g n v pr.2 hm2 s
      rw [abs_sub_comm, abs_of_nonneg (sub_nonneg.2 h2)]
      norm_num at ht ⊢
      linarith
  · intro pc h ε hε
    refine ⟨0.025, by norm_num, fun s hs => ?_⟩
    rw [GenerateBlended_near_anchor g n v pc h s hs.le]
    simpa using hε

/-- Witness for C7: on a fresh generator, sliders 24.98 and 25.01 (within 0.025 of the Pink
anchor, below and above it) give the pure Pink output; in the pair (Pink, White) the slider
25.02 has `t <= 0.001` and 49.99 has `t >= 0.999`. -/
theorem blend_continuity_witness :
    ((25, Pink) ∈ (colorAnchors : List (ℚ × Color)) ∧ |(24.98 : ℚ) - 25| ≤ 0.025 ∧
      (NewGenerator ratRand 1 44100).GenerateBlended 24.98 3 1
        = (NewGenerator ratRand 1 44100).Generate Pink 3 1) ∧
    (|(25.01 : ℚ) - 25| ≤ 0.025 ∧
      (NewGenerator ratRand 1 44100).GenerateBlended 25.01 3 1
        = (NewGenerator ratRand 1 44100).Generate Pink 3 1) ∧
    (((25, Pink), (50, White)) ∈ (anchorPairs : List ((ℚ × Color) × (ℚ × Color))) ∧
      ((25.02 : ℚ) - 25) / (50 - 25) ≤ 0.001 ∧
      (NewGenerator ratRand 1 44100).GenerateBlended 25.02 3 1
        = (NewGenerator ratRand 1 44100).Generate Pink 3 1) ∧
    (((49.99 : ℚ) - 25) / (50 - 25) ≥ 0.999 ∧
      (NewGenerator ratRand 1 44100).GenerateBlended 49.99 3 1
        = (NewGenerator ratRand 1 44100).Generate White 3 1) :=
  ⟨⟨by simp [colorAnchors], by norm_num [abs_le],
      (blend_continuity (NewGenerator ratRand 1 44100) 3 1).1 (25, Pink)
        (by simp [colorAnchors]) 24.98 (by norm_num [abs_le])⟩,
    ⟨by norm_num [abs_le],
      (blend_continuity (NewGenerator ratRand 1 44100) 3 1).1 (25, Pink)
        (by simp [colorAnchors]) 25.01 (by norm_num [abs_le])⟩,
    ⟨by simp [anchorPairs, colorAnchors], by norm_num,
      ((blend_continuity (NewGenerator ratRand 1 44100) 3 1).2.1 ((25, Pink), (50, White))
        (by simp [anchorPairs, colorAnchors]) 25.02 (by norm_num) (by norm_num)).1
        (by norm_num)⟩,
    ⟨by norm_num,
      ((blend_continuity (NewGenerator ratRand 1 44100) 3 1).2.1 ((25, Pink), (50, White))
        (by simp [anchorPairs, colorAnchors]) 49.99 (by norm_num) (by norm_num)).2
        (by norm_num)⟩⟩

theorem generateWhite_length (v : α) (n : Nat) (rng : Rng α) :
    (generateWhite v n rng).1.length = n := by
  induction n generalizing rng with
  | zero => rfl
  | succ n ih => simp [generateWhite, ih]

theorem generateWhite_rng (v : α) (n : Nat) (rng : Rng α) :
    (generateWhite v n rng).2 = ⟨rng.stream, rng.pos + n⟩ := by
  induction n generalizing rng with
  | zero => rfl
  | succ n ih => simp [generateWhite, ih, Rng.Float64, Nat.add_assoc, Nat.add_comm 1 n]

theorem generatePinkState_length (v : α) (n : Nat) (st : Arr7 α) (rng : Rng α) :
    (generatePinkState v n st rng).1.length = n := by
  induction n generalizing st rng with
  | zero => rfl
  | succ n ih => simp [generatePinkState, ih]

theorem generatePinkState_rng (v : α) (n : Nat) (st : Arr7 α) (rng : Rng α) :
    (generatePinkState v n st rng).2.2 = ⟨rng.stream, rng.pos + n⟩ := by
  induction n generalizing st rng with
  | zero => rfl
  | succ n ih => simp [generatePinkState, ih, Rng.Float64, Nat.add_assoc, Nat.add_comm 1 n]

theorem generateBrownState_length (v : α) (n : Nat) (st : α) (rng : Rng α) :
    (generateBrownState v n st rng).1.length = n := by
  induction n generalizing st rng with
  | zero => rfl
  | succ n ih => simp [generateBrownState, ih]

theorem generateBrownState_rng (v : α) (n : Nat) (st : α) (rng : Rng α) :
    (generateBrownState v n st rng).2.2 = ⟨rng.stream, rng.pos + n⟩ := by
  induction n generalizing st rng with
  | zero => rfl
  | succ n ih => simp [generateBrownState, ih, Rng.Float64, Nat.add_assoc, Nat.add_comm 1 n]

theorem generateBlueState_length (v : α) (n : Nat) (st : α) (rng : Rng α) :
    (generateBlueState v n st rng).1.length = n := by
  induction n generalizing st rng with
  | zero => rfl
  | succ n ih => simp [generateBlueState, ih]

theorem generateBlueState_rng (v : α) (n : Nat) (st : α) (rng : Rng α) :
    (generateBlueState v n st rng).2.2 = ⟨rng.stream, rng.pos + n⟩ := by
  induction n generalizing st rng with
  | zero => rfl
  | succ n ih => simp [generateBlueState, ih, Rng.Float64, Nat.add_assoc, Nat.add_comm 1 n]

theorem generateVioletState_length (v : α) (n : Nat) (pw pb : α) (rng : Rng α) :
    (generateVioletState v n pw pb rng).1.length = n := by
  induction n generalizing pw pb rng with
  | zero => rfl
  | succ n ih => simp [generateVioletState, ih]

theorem generateVioletState_rng (v : α) (n : Nat) (pw pb : α) (rng : Rng α) :
    (generateVioletState v n pw pb rng).2.2 = ⟨rng.stream, rng.pos + n⟩ := by
  induction n generalizing pw pb rng with
  | zero => rfl
  | succ n ih => simp [generateVioletState, ih, Rng.Float64, Nat.add_assoc, Nat.add_comm 1 n]

theorem generateColor_length (g : Generator α) (c : Color) (p : Bool) (n : Nat) (v : α) :
    (g.generateColor c p n v).1.length = n := by
  unfold Generator.generateColor
  split_ifs <;>
  simp only [generateWhite_length, generatePinkState_length, generateBrownState_length,
    generateBlueState_length, generateVioletState_length]

theorem generateColor_rng (g : Generator α) (c : Color) (p : Bool) (n : Nat) (v : α) :
    (g.generateColor c p n v).2.rng = ⟨g.rng.stream, g.rng.pos + n⟩ := by
  unfold Generator.generateColor
  split_ifs <;>
  simp only [generateWhite_rng, generatePinkState_rng, generateBrownState_rng,
    generateBlueState_rng, generateVioletState_rng]

theorem crossfade_length (a b : List α) (t : α) (n : Nat) : (crossfade a b t n).length = n := by
  simp [crossfade]

theorem crossfade_getElem? (a b : List α) (t : α) (n j : Nat) (hj : j < n) :
    (crossfade a b t n)[j]? = some (a.getD j 0 * (1 - t) + b.getD j 0 * t) := by
  simp [crossfade, List.getElem?_map, List.getElem?_range hj]

theorem getElem?_eq_some_getD (a : List α) (j : Nat) (hj : j < a.length) :
    a[j]? = some (a.getD j 0) := by
  simp [List.getD, List.getElem?_eq_getElem hj]

theorem primarySlot_hi_unchanged (g : Generator α) (n : Nat) (v : α)
    (pr : (α × Color) × (α × Color)) (h : pr ∈ anchorPairs) :
    primarySlot ((g.generateColor pr.1.2 true n v).2.generateColor pr.2.2 false n v).2 pr.2.2
      = primarySlot g pr.2.2 := by
  rcases mem_anchorPairs pr h with rfl | rfl | rfl | rfl <;>
  simp [Generator.generateColor, primarySlot, Brown, Pink, White, Blue, Violet]

/-- C8: crossfade formula. For a bracketing anchor pair `(lo, hi)` with
`lo.pos <= colorSlider <= hi.pos` and `t = (colorSlider - lo.pos)/(hi.pos - lo.pos)` strictly
between 0.001 and 0.999 (so `0 < colorSlider < 100`), let `a` be the output of the lo colour
on its primary slot from the current state (the first `n` draws) and `b` the output of the hi
colour on its secondary slot from the state `a` leaves (the next `n` draws). Then
`GenerateBlended` returns `n` samples with `result[j] = a[j]*(1-t) + b[j]*t` for every
`j < n`, leaves the generator in the state after `b`, and leaves the primary slot of the hi
colour unchanged. -/
theorem crossfade_formula (g : Generator α) (n : Nat) (v : α)
    (pr : (α × Color) × (α × Color)) (hpr : pr ∈ anchorPairs) (s : α)
    (h1 : pr.1.1 ≤ s) (h2 : s ≤ pr.2.1)
    (t : α) (ht : t = (s - pr.1.1) / (pr.2.1 - pr.1.1)) (ht1 : 0.001 < t) (ht2 : t < 0.999)
    (a b : List α × Generator α) (ha : a = g.generateColor pr.1.2 true n v)
    (hb : b = a.2.generateColor pr.2.2 false n v) :
    (0 < s ∧ s < 100) ∧
    (g.GenerateBlended s n v).1.length = n ∧ a.1.length = n ∧ b.1.length = n ∧
    (∀ j : Nat, j < n → ∃ x y : α, a.1[j]? = some x ∧ b.1[j]? = some y ∧
      (g.GenerateBlended s n v).1[j]? = some (x * (1 - t) + y * t)) ∧
    a.2.rng = ⟨g.rng.stream, g.rng.pos + n⟩ ∧
    b.2.rng = ⟨g.rng.stream, g.rng.pos + n + n⟩ ∧
    (g.GenerateBlended s n v).2 = b.2 ∧
    primarySlot (g.GenerateBlended s n v).2 pr.2.2 = primarySlot g pr.2.2 := by
  obtain ⟨hw, hlo, hhi⟩ := anchorPairs_width pr hpr
  have hlt : pr.1.1 < s := by
    rcases eq_or_lt_of_le h1 with e | e
    · rw [ht, ← e, sub_self, zero_div] at ht1
      norm_num at ht1
    · exact e
  have hlt2 : s < pr.2.1 := by
    rcases eq_or_lt_of_le h2 with e | e
    · rw [ht, e, hw, div_self (by norm_num)] at ht2
      norm_num at ht2
    · exact e
  have hG : g.GenerateBlended s n v = (crossfade a.1 b.1 t n, b.2) := by
    rw [GenerateBlended_of_pair g s n v pr hpr hlt h2,
      blendLoop_pair_mid g s n v pr.1 pr.2 h1 h2 (ht ▸ ht1) (ht ▸ ht2), hb, ha, ht]
  have la : a.1.length = n := by rw [ha]; exact generateColor_length _ _ _ _ _
  have lb : b.1.length = n := by rw [hb]; exact generateColor_length _ _ _ _ _
  have ra : a.2.rng = ⟨g.rng.stream, g.rng.pos + n⟩ := by
    rw [ha]; exact generateColor_rng _ _ _ _ _
  refine ⟨⟨lt_of_le_of_lt hlo hlt, lt_of_lt_of_le hlt2 hhi⟩, ?_, la, lb, ?_, ra, ?_, ?_, ?_⟩
  · rw [hG]; exact crossfade_length _ _ _ _
  · intro j hj
    refine ⟨a.1.getD j 0, b.1.getD j 0, getElem?_eq_some_getD _ _ (la ▸ hj),
      getElem?_eq_some_getD _ _ (lb ▸ hj), ?_⟩
    rw [hG]
    exact crossfade_getElem? _ _ _ _ _ hj
  · rw [hb, generateColor_rng, ra]
  · rw [hG]
  · rw [hG, hb, ha]
    exact primarySlot_hi_unchanged g n v pr hpr

/-- Witness for C8: a fresh generator at slider 10, between the Brown (0) and Pink (25)
anchors, where `t = 0.4`. -/
theorem crossfade_formula_witness :
    (((0, Brown), (25, Pink)) ∈ (anchorPairs : List ((ℚ × Color) × (ℚ × Color))) ∧
      (0 : ℚ) ≤ 10 ∧ (10 : ℚ) ≤ 25 ∧ (0.4 : ℚ) = (10 - 0) / (25 - 0) ∧
      (0.001 : ℚ) < 0.4 ∧ (0.4 : ℚ) < 0.999) ∧
    ((0 : ℚ) < 10 ∧ (10 : ℚ) < 100) ∧
    ((NewGenerator ratRand 1 44100).GenerateBlended 10 3 1).1.length = 3 ∧
    ((NewGenerator ratRand 1 44100).generateColor Brown true 3 1).1.length = 3 ∧
    (((NewGenerator ratRand 1 44100).generateColor Brown true 3 1).2.generateColor Pink false
      3 1).1.length = 3 ∧
    (∀ j : Nat, j < 3 → ∃ x y : ℚ,
      ((NewGenerator ratRand 1 44100).generateColor Brown true 3 1).1[j]? = some x ∧
      (((NewGenerator ratRand 1 44100).generateColor Brown true 3 1).2.generateColor Pink false
        3 1).1[j]? = some y ∧
      ((NewGenerator ratRand 1 44100).GenerateBlended 10 3 1).1[j]?
        = some (x * (1 - 0.4) + y * 0.4)) ∧
    ((NewGenerator ratRand 1 44100).generateColor Brown true 3 1).2.rng
      = ⟨(NewGenerator ratRand 1 44100).rng.stream, (NewGenerator ratRand 1 44100).rng.pos + 3⟩ ∧
    (((NewGenerator ratRand 1 44100).generateColor Brown true 3 1).2.generateColor Pink false
      3 1).2.rng
      = ⟨(NewGenerator ratRand 1 44100).rng.stream,
          (NewGenerator ratRand 1 44100).rng.pos + 3 + 3⟩ ∧
    ((NewGenerator ratRand 1 44100).GenerateBlended 10 3 1).2
      = (((NewGenerator ratRand 1 44100).generateColor Brown true 3 1).2.generateColor Pink
          false 3 1).2 ∧
    primarySlot ((NewGenerator ratRand 1 44100).GenerateBlended 10 3 1).2 Pink
      = primarySlot (NewGenerator ratRand 1 44100) Pink :=
  ⟨⟨by simp [anchorPairs, colorAnchors], by norm_num, by norm_num, by norm_num, by norm_num,
      by norm_num⟩,
    crossfade_formula (NewGenerator ratRand 1 44100) 3 1 ((0, Brown), (25, Pink))
      (by simp [anchorPairs, colorAnchors]) 10 (by norm_num) (by norm_num) 0.4 (by norm_num)
      (by norm_num) (by norm_num) _ _ rfl rfl⟩

/-! ## The shelving filter -/

theorem NewShelf_delays (M : Math α) (ty : ShelfType) (f0 gainDB sr : α) :
    (NewShelf M ty f0 gainDB sr).delays = (0, 0, 0, 0) := rfl

theorem NewShelf_zero_gain (M : Math α) (hpow : M.Pow 10 0 = 1) (ty : ShelfType)
    (hty : ty = LowShelf ∨ ty = HighShelf) (f0 sr : α)
    (ha0 : (rawCoefficients M ty f0 sr 0).a0 ≠ 0) :
    (NewShelf M ty f0 0 sr).b0 = 1 ∧
    (NewShelf M ty f0 0 sr).b1 = (NewShelf M ty f0 0 sr).a1 ∧
    (NewShelf M ty f0 0 sr).b2 = (NewShelf M ty f0 0 sr).a2 := by
  rcases hty with rfl | rfl
  · simp only [NewShelf, Biquad.computeCoefficients]
    simp only [rawCoefficients, zero_div, hpow, if_true] at ha0 ⊢
    refine ⟨?_, ?_, ?_⟩
    · rw [div_eq_one_iff_eq ha0]; ring
    · congr 1; ring
    · congr 1; ring
  · simp only [NewShelf, Biquad.computeCoefficients]
    have hne : ¬ (HighShelf = LowShelf) := by decide
    simp only [rawCoefficients, zero_div, hpow, if_true, hne, if_false] at ha0 ⊢
    refine ⟨?_, ?_, ?_⟩
    · rw [div_eq_one_iff_eq ha0]; ring
    · congr 1; ring
    · congr 1; ring

theorem Process_transparent (b : Biquad α) (buf : List α) (h0 : b.b0 = 1) (h1 : b.b1 = b.a1)
    (h2 : b.b2 = b.a2) (hx1 : b.x1 = b.y1) (hx2 : b.x2 = b.y2) :
    (b.Process buf).2 = buf ∧ (b.Process buf).1.b0 = 1 ∧
    (b.Process buf).1.b1 = (b.Process buf).1.a1 ∧ (b.Process buf).1.b2 = (b.Process buf).1.a2 ∧
    (b.Process buf).1.x1 = (b.Process buf).1.y1 ∧ (b.Process buf).1.x2 = (b.Process buf).1.y2 := by
  induction buf generalizing b with
  | nil => exact ⟨rfl, h0, h1, h2, hx1, hx2⟩
  | cons x rest ih =>
    have hy : b.b0 * x + b.b1 * b.x1 + b.b2 * b.x2 - b.a1 * b.y1 - b.a2 * b.y2 = x := by
      rw [h0, h1, h2, hx1, hx2]; ring
    have := ih { b with x2 := b.x1, x1 := x, y2 := b.y1,
                        y1 := b.b0 * x + b.b1 * b.x1 + b.b2 * b.x2 - b.a1 * b.y1 - b.a2 * b.y2 }
      h0 h1 h2 hy.symm hx1
    simp only [Biquad.Process]
    refine ⟨?_, this.2⟩
    rw [this.1, hy]

theorem processAll_transparent (b : Biquad α) (bufs : List (List α)) (h0 : b.b0 = 1)
    (h1 : b.b1 = b.a1) (h2 : b.b2 = b.a2) (hx1 : b.x1 = b.y1) (hx2 : b.x2 = b.y2) :
    (processAll b bufs).2 = bufs := by
  induction bufs generalizing b with
  | nil => rfl
  | cons buf rest ih =>
    obtain ⟨e, k0, k1, k2, k3, k4⟩ := Process_transparent b buf h0 h1 h2 hx1 hx2
    simp only [processAll]
    rw [e, ih _ k0 k1 k2 k3 k4]

/-- C9: a shelf filter with `gainDB = 0` is the identity. For `LowShelf` and `HighShelf`, any
centre frequency and sample rate for which the normalising coefficient `a0` is non-zero, the
filter `NewShelf(type, f0, 0, sampleRate)` leaves every buffer unchanged under `Process`, over
any number of successive `Process` calls (`math.Pow(10, 0)` being 1). -/
theorem zero_gain_shelf_is_identity (M : Math α) (hpow : M.Pow 10 0 = 1) (ty : ShelfType)
    (hty : ty = LowShelf ∨ ty = HighShelf) (f0 sr : α)
    (ha0 : (rawCoefficients M ty f0 sr 0).a0 ≠ 0) (bufs : List (List α)) :
    (processAll (NewShelf M ty f0 0 sr) bufs).2 = bufs := by
  obtain ⟨h0, h1, h2⟩ := NewShelf_zero_gain M hpow ty hty f0 sr ha0
  exact processAll_transparent _ bufs h0 h1 h2 rfl rfl

theorem real_a0_pos (ty : ShelfType) (hty : ty = LowShelf ∨ ty = HighShelf) (f0 sr : ℝ)
    (h0 : 0 ≤ f0) (hsr : 0 < sr) (h1 : 2 * f0 ≤ sr) :
    0 < (rawCoefficients ⟨fun x y => x ^ y, Real.pi, Real.cos, Real.sin, Real.sqrt, Real.sqrt 2⟩
      ty f0 sr 0).a0 := by
  have hw0 : 0 ≤ 2 * Real.pi * f0 / sr := by positivity
  have hw1 : 2 * Real.pi * f0 / sr ≤ Real.pi := by
    rw [div_le_iff₀ hsr]
    nlinarith [Real.pi_pos]
  have hsin := Real.sin_nonneg_of_nonneg_of_le_pi hw0 hw1
  have hs2 := Real.sqrt_nonneg 2
  have hne : ¬ (HighShelf = LowShelf) := by decide
  rcases hty with rfl | rfl
  · simp only [rawCoefficients, zero_div, Real.rpow_zero, if_true, Real.sqrt_one]
    nlinarith [mul_nonneg hsin hs2]
  · simp only [rawCoefficients, zero_div, Real.rpow_zero, if_true, Real.sqrt_one, hne, if_false]
    nlinarith [mul_nonneg hsin hs2]

/-- Witness for C9: over the reals, with the real power, cosine, sine and square-root
functions, the mixer's two filters at 44100 Hz (low shelf at 300 Hz, high shelf at 3000 Hz)
have non-zero `a0` at gain 0 and leave two successive buffers unchanged. -/
theorem zero_gain_shelf_is_identity_witness :
    (((10 : ℝ) ^ (0 : ℝ) = 1 ∧
      (rawCoefficients ⟨fun x y => x ^ y, Real.pi, Real.cos, Real.sin, Real.sqrt, Real.sqrt 2⟩
        LowShelf (300 : ℝ) 44100 0).a0 ≠ 0) ∧
      (processAll
        (NewShelf ⟨fun x y => x ^ y, Real.pi, Real.cos, Real.sin, Real.sqrt, Real.sqrt 2⟩
          LowShelf (300 : ℝ) 0 44100) [[1, 2, 3], [-1 / 2]]).2 = [[1, 2, 3], [-1 / 2]]) ∧
    ((rawCoefficients ⟨fun x y => x ^ y, Real.pi, Real.cos, Real.sin, Real.sqrt, Real.sqrt 2⟩
        HighShelf (3000 : ℝ) 44100 0).a0 ≠ 0 ∧
      (processAll
        (NewShelf ⟨fun x y => x ^ y, Real.pi, Real.cos, Real.sin, Real.sqrt, Real.sqrt 2⟩
          HighShelf (3000 : ℝ) 0 44100) [[1, 2, 3], [-1 / 2]]).2 = [[1, 2, 3], [-1 / 2]]) :=
  ⟨⟨⟨Real.rpow_zero 10,
        (real_a0_pos LowShelf (Or.inl rfl) 300 44100 (by norm_num) (by norm_num)
          (by norm_num)).ne.symm⟩,
      zero_gain_shelf_is_identity _ (Real.rpow_zero 10) LowShelf (Or.inl rfl) 300 44100
        (real_a0_pos LowShelf (Or.inl rfl) 300 44100 (by norm_num) (by norm_num)
          (by norm_num)).ne.symm [[1, 2, 3], [-1 / 2]]⟩,
    ⟨(real_a0_pos HighShelf (Or.inr rfl) 3000 44100 (by norm_num) (by norm_num)
          (by norm_num)).ne.symm,
      zero_gain_shelf_is_identity _ (Real.rpow_zero 10) HighShelf (Or.inr rfl) 3000 44100
        (real_a0_pos HighShelf (Or.inr rfl) 3000 44100 (by norm_num) (by norm_num)
          (by norm_num)).ne.symm [[1, 2, 3], [-1 / 2]]⟩⟩

theorem UpdateGain_delays (M : Math α) (b : Biquad α) (gainDB : α) :
    (b.UpdateGain M gainDB).delays = b.delays := rfl

theorem UpdateGain_coefficients (M : Math α) (b : Biquad α) (gainDB : α) :
    (b.UpdateGain M gainDB).coefficients
      = (NewShelf M b.shelfType b.f0 gainDB b.sampleRate).coefficients := rfl

theorem sliderToGainDB_clamp (v : α) :
    sliderToGainDB (max (-100) (min 100 v)) = min 100 (max (-100) v) / 100 * 12 := by
  rw [clamp_comm (-100) 100 v (by norm_num)]
  simp only [sliderToGainDB]
  norm_num

/-- C10: gain updates never touch filter history. `UpdateGain(gainDB)` leaves the delay
registers `x1, x2, y1, y2` and `shelfType`, `f0`, `sampleRate` unchanged and sets the five
coefficients to those of `NewShelf(shelfType, f0, gainDB, sampleRate)`. `SetBass(v)` replaces
the two low-shelf filters by their `UpdateGain` at `clamp(v, -100, 100)/100*12`, so their
delay registers are unchanged, and leaves the two high-shelf filters as they are; `SetTreble(v)`
does the same with the roles of the low-shelf and high-shelf filters exchanged. -/
theorem gain_update_keeps_delays (M : Math α) :
    (∀ (b : Biquad α) (gainDB : α),
      (b.UpdateGain M gainDB).delays = b.delays ∧
      (b.UpdateGain M gainDB).shelfType = b.shelfType ∧
      (b.UpdateGain M gainDB).f0 = b.f0 ∧
      (b.UpdateGain M gainDB).sampleRate = b.sampleRate ∧
      (b.UpdateGain M gainDB).coefficients
        = (NewShelf M b.shelfType b.f0 gainDB b.sampleRate).coefficients) ∧
    (∀ (m : Mixer α) (v : α),
      (m.SetBass M v).lowShelfL
        = m.lowShelfL.UpdateGain M (min 100 (max (-100) v) / 100 * 12) ∧
      (m.SetBass M v).lowShelfR
        = m.lowShelfR.UpdateGain M (min 100 (max (-100) v) / 100 * 12) ∧
      (m.SetBass M v).highShelfL = m.highShelfL ∧
      (m.SetBass M v).highShelfR = m.highShelfR ∧
      (m.SetBass M v).lowShelfL.delays = m.lowShelfL.delays ∧
      (m.SetBass M v).lowShelfR.delays = m.lowShelfR.delays ∧
      (m.SetBass M v).highShelfL.delays = m.highShelfL.delays ∧
      (m.SetBass M v).highShelfR.delays = m.highShelfR.delays) ∧
    (∀ (m : Mixer α) (v : α),
      (m.SetTreble M v).highShelfL
        = m.highShelfL.UpdateGain M (min 100 (max (-100) v) / 100 * 12) ∧
      (m.SetTreble M v).highShelfR
        = m.highShelfR.UpdateGain M (min 100 (max (-100) v) / 100 * 12) ∧
      (m.SetTreble M v).lowShelfL = m.lowShelfL ∧
      (m.SetTreble M v).lowShelfR = m.lowShelfR ∧
      (m.SetTreble M v).lowShelfL.delays = m.lowShelfL.delays ∧
      (m.SetTreble M v).lowShelfR.delays = m.lowShelfR.delays ∧
      (m.SetTreble M v).highShelfL.delays = m.highShelfL.delays ∧
      (m.SetTreble M v).highShelfR.delays = m.highShelfR.delays) := by
  refine ⟨fun b gainDB => ⟨rfl, rfl, rfl, rfl, rfl⟩, fun m v => ?_, fun m v => ?_⟩
  · refine ⟨?_, ?_, rfl, rfl, rfl, rfl, rfl, rfl⟩
    · simp only [Mixer.SetBass, sliderToGainDB_clamp]
    · simp only [Mixer.SetBass, sliderToGainDB_clamp]
  · refine ⟨?_, ?_, rfl, rfl, rfl, rfl, rfl, rfl⟩
    · simp only [Mixer.SetTreble, sliderToGainDB_clamp]
    · simp only [Mixer.SetTreble, sliderToGainDB_clamp]

/-! ## The Brown integrator -/

theorem white_abs_le (r : Rng α) (h : WhiteInRange r) (i : Nat) : |r.stream i * 2 - 1| ≤ 1 :=
  abs_le.2 (h i)

theorem WhiteInRange_advance (r : Rng α) (h : WhiteInRange r) : WhiteInRange r.Float64.2 :=
  h

theorem brownStep_abs_le (state w : α) (hs : |state| ≤ 1) (hw : |w| ≤ 1) :
    |(state + 0.02 * w) / 1.02| ≤ 1 := by
  obtain ⟨s1, s2⟩ := abs_le.1 hs
  obtain ⟨w1, w2⟩ := abs_le.1 hw
  rw [abs_le]
  constructor
  · rw [le_div_iff₀ (by norm_num)]
    norm_num
    linarith
  · rw [div_le_iff₀ (by norm_num)]
    norm_num
    linarith

theorem generateBrownState_bounds (v : α) (hv : 0 ≤ v) (n : Nat) (state : α) (rng : Rng α)
    (hs : |state| ≤ 1) (hr : WhiteInRange rng) :
    |(generateBrownState v n state rng).2.1| ≤ 1 ∧
    ∀ x ∈ (generateBrownState v n state rng).1, |x| ≤ 3.5 * v := by
  induction n generalizing state rng with
  | zero => exact ⟨hs, by simp [generateBrownState]⟩
  | succ n ih =>
    have hw := white_abs_le rng hr rng.pos
    have hs' := brownStep_abs_le state (rng.stream rng.pos * 2 - 1) hs hw
    obtain ⟨i1, i2⟩ := ih ((state + 0.02 * (rng.stream rng.pos * 2 - 1)) / 1.02) rng.Float64.2
      hs' hr
    simp only [generateBrownState, Rng.Float64] at i1 i2 ⊢
    refine ⟨i1, ?_⟩
    intro x hx
    rcases List.mem_cons.1 hx with rfl | hx
    · rw [abs_mul, abs_mul, abs_of_nonneg hv]
      have h35 : |(3.5 : α)| = 3.5 := abs_of_nonneg (by norm_num)
      rw [h35]
      have := mul_le_mul_of_nonneg_right hs' (show (0 : α) ≤ 3.5 by norm_num)
      nlinarith [mul_le_mul_of_nonneg_right this hv]
    · exact i2 x hx

/-- C12: the Brown leaky integrator is bounded. The accumulator is 0 at construction (both
slots); if it satisfies `|state| <= 1` before a call and every white sample lies in `[-1, 1]`,
then after any number of steps of `state = (state + 0.02*w)/1.02` it still satisfies
`|state| <= 1`, and every Brown output sample satisfies `|out| <= 3.5*volume` for
`volume >= 0`. -/
theorem brown_integrator_bounded (newRand : Int → Rng α) (int63 sampleRate : Int) (v : α)
    (hv : 0 ≤ v) (n : Nat) (state : α) (rng : Rng α) (hs : |state| ≤ 1)
    (hr : WhiteInRange rng) :
    ((NewGenerator newRand int63 sampleRate).brown = 0 ∧
      (NewGenerator newRand int63 sampleRate).brown2 = 0) ∧
    |(generateBrownState v n state rng).2.1| ≤ 1 ∧
    ∀ x ∈ (generateBrownState v n state rng).1, |x| ≤ 3.5 * v :=
  ⟨⟨rfl, rfl⟩, generateBrownState_bounds v hv n state rng hs hr⟩

theorem ratRand_whiteInRange (seed : Int) : WhiteInRange (ratRand seed) := by
  intro i
  have h8 : (seed.toNat + 3 * i) % 8 < 8 := Nat.mod_lt _ (by norm_num)
  have h0 : (0 : ℚ) ≤ (((seed.toNat + 3 * i) % 8 : Nat) : ℚ) := Nat.cast_nonneg _
  have h1 : (((seed.toNat + 3 * i) % 8 : Nat) : ℚ) ≤ 8 := by exact_mod_cast h8.le
  simp only [ratRand]
  constructor <;> linarith

/-- Witness for C12: five Brown samples at volume 2 from accumulator 1/2, on the source
`ratRand 1`. -/
theorem brown_integrator_bounded_witness :
    ((0 : ℚ) ≤ 2 ∧ |(1 / 2 : ℚ)| ≤ 1 ∧ WhiteInRange (ratRand 1)) ∧
    ((NewGenerator ratRand 1 44100).brown = 0 ∧ (NewGenerator ratRand 1 44100).brown2 = 0) ∧
    |(generateBrownState 2 5 (1 / 2) (ratRand 1)).2.1| ≤ 1 ∧
    ∀ x ∈ (generateBrownState 2 5 (1 / 2) (ratRand 1)).1, |x| ≤ 3.5 * 2 :=
  ⟨⟨by norm_num, by norm_num [abs_le], ratRand_whiteInRange 1⟩,
    brown_integrator_bounded ratRand 1 44100 2 (by norm_num) 5 (1 / 2) (ratRand 1)
      (by norm_num [abs_le]) (ratRand_whiteInRange 1)⟩

/-! ## Power-off rendering -/

theorem iterate_decay (n : Nat) (v : α) :
    (fun x : α => x + (0 - x) * 0.001)^[n] v = v * 0.999 ^ n := by
  induction n generalizing v with
  | zero => simp
  | succ n ih =>
    rw [Function.iterate_succ_apply, ih, pow_succ]
    ring_nf

/-- C13: power-off render decays the volume and is otherwise inert. With power off, `Mix(n)`
changes only `masterVolume`, which becomes `masterVolume * 0.999^n`, the result of applying
the smoothing law with target 0 `n` times; `targetVolume`, `colorSlider`, `bassGain`,
`trebleGain`, the power flag, the whole noise generator (accumulators and random source) and
the four filters (coefficients and delay registers) are unchanged. -/
theorem mix_power_off_inert (m : Mixer α) (hp : m.power = false) (n : Nat) :
    (m.Mix n).2 = { m with masterVolume := m.masterVolume * 0.999 ^ n } ∧
    (m.Mix n).2.masterVolume = (fun x : α => x + (0 - x) * 0.001)^[n] m.masterVolume ∧
    (m.Mix n).2.targetVolume = m.targetVolume ∧
    (m.Mix n).2.colorSlider = m.colorSlider ∧
    (m.Mix n).2.bassGain = m.bassGain ∧
    (m.Mix n).2.trebleGain = m.trebleGain ∧
    (m.Mix n).2.power = m.power ∧
    (m.Mix n).2.noiseGen = m.noiseGen ∧
    (m.Mix n).2.lowShelfL = m.lowShelfL ∧
    (m.Mix n).2.lowShelfR = m.lowShelfR ∧
    (m.Mix n).2.highShelfL = m.highShelfL ∧
    (m.Mix n).2.highShelfR = m.highShelfR := by
  have e : (m.Mix n).2 = { m with masterVolume := m.masterVolume * 0.999 ^ n } := by
    rw [Mix_power_off m hp n, foldl_decayStep, List.length_range]
  rw [e, iterate_decay]
  exact ⟨rfl, rfl, rfl, rfl, rfl, rfl, rfl, rfl, rfl, rfl, rfl, rfl⟩

/-- Witness for C13: a freshly constructed mixer (power off) with bass set to 50 renders 3
samples. -/
theorem mix_power_off_inert_witness :
    ((NewMixer ratMath ratRand 1 44100).SetBass ratMath 50).power = false ∧
    (((NewMixer ratMath ratRand 1 44100).SetBass ratMath 50).Mix 3).2
      = { (NewMixer ratMath ratRand 1 44100).SetBass ratMath 50 with
          masterVolume :=
            ((NewMixer ratMath ratRand 1 44100).SetBass ratMath 50).masterVolume * 0.999 ^ 3 } ∧
    (((NewMixer ratMath ratRand 1 44100).SetBass ratMath 50).Mix 3).2.noiseGen
      = ((NewMixer ratMath ratRand 1 44100).SetBass ratMath 50).noiseGen :=
  ⟨rfl, (mix_power_off_inert _ rfl 3).1, (mix_power_off_inert _ rfl 3).2.2.2.2.2.2.2.1⟩

/-! ## Shelf gains at the band edges -/

theorem NewShelf_coefficients (M : Math α) (ty : ShelfType) (f0 gainDB sr : α) :
    (NewShelf M ty f0 gainDB sr).coefficients
      = ((rawCoefficients M ty f0 sr gainDB).b0 / (rawCoefficients M ty f0 sr gainDB).a0,
         (rawCoefficients M ty f0 sr gainDB).b1 / (rawCoefficients M ty f0 sr gainDB).a0,
         (rawCoefficients M ty f0 sr gainDB).b2 / (rawCoefficients M ty f0 sr gainDB).a0,
         (rawCoefficients M ty f0 sr gainDB).a1 / (rawCoefficients M ty f0 sr gainDB).a0,
         (rawCoefficients M ty f0 sr gainDB).a2 / (rawCoefficients M ty f0 sr gainDB).a0) := rfl

theorem lowShelf_raw_edges (M : Math α) (f0 sr gainDB : α) :
    (rawCoefficients M LowShelf f0 sr gainDB).b0 + (rawCoefficients M LowShelf f0 sr gainDB).b1
        + (rawCoefficients M LowShelf f0 sr gainDB).b2
      = M.Pow 10 (gainDB / 40.0) ^ 2 *
        ((rawCoefficients M LowShelf f0 sr gainDB).a0
          + (rawCoefficients M LowShelf f0 sr gainDB).a1
          + (rawCoefficients M LowShelf f0 sr gainDB).a2) ∧
    (rawCoefficients M LowShelf f0 sr gainDB).b0 - (rawCoefficients M LowShelf f0 sr gainDB).b1
        + (rawCoefficients M LowShelf f0 sr gainDB).b2
      = (rawCoefficients M LowShelf f0 sr gainDB).a0
          - (rawCoefficients M LowShelf f0 sr gainDB).a1
          + (rawCoefficients M LowShelf f0 sr gainDB).a2 := by
  simp only [rawCoefficients, if_true]
  constructor <;> ring

theorem highShelf_raw_edges (M : Math α) (f0 sr gainDB : α) :
    (rawCoefficients M HighShelf f0 sr gainDB).b0 + (rawCoefficients M HighShelf f0 sr gainDB).b1
        + (rawCoefficients M HighShelf f0 sr gainDB).b2
      = (rawCoefficients M HighShelf f0 sr gainDB).a0
          + (rawCoefficients M HighShelf f0 sr gainDB).a1
          + (rawCoefficients M HighShelf f0 sr gainDB).a2 ∧
    (rawCoefficients M HighShelf f0 sr gainDB).b0 - (rawCoefficients M HighShelf f0 sr gainDB).b1
        + (rawCoefficients M HighShelf f0 sr gainDB).b2
      = M.Pow 10 (gainDB / 40.0) ^ 2 *
        ((rawCoefficients M HighShelf f0 sr gainDB).a0
          - (rawCoefficients M HighShelf f0 sr gainDB).a1
          + (rawCoefficients M HighShelf f0 sr gainDB).a2) := by
  have hne : ¬ (HighShelf = LowShelf) := by decide
  simp only [rawCoefficients, if_true, hne, if_false]
  constructor <;> ring

theorem normalised_sum (b0 b1 b2 a0 a1 a2 k : α) (ha0 : a0 ≠ 0)
    (h : b0 + b1 + b2 = k * (a0 + a1 + a2)) :
    b0 / a0 + b1 / a0 + b2 / a0 = k * (1 + a1 / a0 + a2 / a0) := by
  field_simp
  linear_combination h

theorem normalised_alt (b0 b1 b2 a0 a1 a2 k : α) (ha0 : a0 ≠ 0)
    (h : b0 - b1 + b2 = k * (a0 - a1 + a2)) :
    b0 / a0 - b1 / a0 + b2 / a0 = k * (1 - a1 / a0 + a2 / a0) := by
  field_simp
  linear_combination h

/-- C15: the computed shelf coefficients realise the requested gain exactly at the band
edges. With `A = Pow(10, gainDB/40)` and non-zero `a0`, the coefficients that
`computeCoefficients` stores satisfy, for a low shelf, `b0 + b1 + b2 = A^2 * (1 + a1 + a2)`
(gain `A^2` at DC) and `b0 - b1 + b2 = 1 - a1 + a2` (unity gain at Nyquist), and for a high
shelf `b0 + b1 + b2 = 1 + a1 + a2` (unity gain at DC) and
`b0 - b1 + b2 = A^2 * (1 - a1 + a2)` (gain `A^2` at Nyquist). -/
theorem shelf_gain_at_band_edges (M : Math α) (b : Biquad α) (gainDB : α)
    (ha0 : (rawCoefficients M b.shelfType b.f0 b.sampleRate gainDB).a0 ≠ 0)
    (A : α) (hA : A = M.Pow 10 (gainDB / 40))
    (c : Biquad α) (hc : c = b.computeCoefficients M gainDB) :
    (b.shelfType = LowShelf →
      c.b0 + c.b1 + c.b2 = A ^ 2 * (1 + c.a1 + c.a2) ∧
      c.b0 - c.b1 + c.b2 = 1 - c.a1 + c.a2) ∧
    (b.shelfType = HighShelf →
      c.b0 + c.b1 + c.b2 = 1 + c.a1 + c.a2 ∧
      c.b0 - c.b1 + c.b2 = A ^ 2 * (1 - c.a1 + c.a2)) := by
  have h40 : (40.0 : α) = 40 := by norm_num
  subst hc
  simp only [Biquad.computeCoefficients]
  constructor
  · intro hty
    rw [hty] at ha0 ⊢
    obtain ⟨e1, e2⟩ := lowShelf_raw_edges M b.f0 b.sampleRate gainDB
    rw [h40, ← hA] at e1
    refine ⟨normalised_sum _ _ _ _ _ _ _ ha0 e1, ?_⟩
    rw [← one_mul (_ - _ + (rawCoefficients M LowShelf b.f0 b.sampleRate gainDB).a2)] at e2
    have := normalised_alt _ _ _ _ _ _ 1 ha0 e2
    rwa [one_mul] at this
  · intro hty
    rw [hty] at ha0 ⊢
    obtain ⟨e1, e2⟩ := highShelf_raw_edges M b.f0 b.sampleRate gainDB
    rw [h40, ← hA] at e2
    refine ⟨?_, normalised_alt _ _ _ _ _ _ _ ha0 e2⟩
    rw [← one_mul (_ + _ + (rawCoefficients M HighShelf b.f0 b.sampleRate gainDB).a2)] at e1
    have := normalised_sum _ _ _ _ _ _ 1 ha0 e1
    rwa [one_mul] at this

theorem real_a0_pos_gain (ty : ShelfType) (hty : ty = LowShelf ∨ ty = HighShelf)
    (f0 sr gainDB : ℝ) (h0 : 0 ≤ f0) (hsr : 0 < sr) (h1 : 2 * f0 ≤ sr) :
    0 < (rawCoefficients ⟨fun x y => x ^ y, Real.pi, Real.cos, Real.sin, Real.sqrt, Real.sqrt 2⟩
      ty f0 sr gainDB).a0 := by
  have hw0 : 0 ≤ 2 * Real.pi * f0 / sr := by positivity
  have hw1 : 2 * Real.pi * f0 / sr ≤ Real.pi := by
    rw [div_le_iff₀ hsr]
    nlinarith [Real.pi_pos]
  have hsin := Real.sin_nonneg_of_nonneg_of_le_pi hw0 hw1
  have hc1 := Real.cos_le_one (2 * Real.pi * f0 / sr)
  have hc2 := Real.neg_one_le_cos (2 * Real.pi * f0 / sr)
  have hs2 := Real.sqrt_nonneg 2
  have hA : (0 : ℝ) < 10 ^ (gainDB / 40.0) := Real.rpow_pos_of_pos (by norm_num) _
  have hsA := Real.sqrt_nonneg ((10 : ℝ) ^ (gainDB / 40.0))
  have ht : 0 ≤ 2 * Real.sqrt ((10 : ℝ) ^ (gainDB / 40.0))
      * (Real.sin (2 * Real.pi * f0 / sr) / 2 * Real.sqrt 2) := by positivity
  have hne : ¬ (HighShelf = LowShelf) := by decide
  rcases hty with rfl | rfl
  · simp only [rawCoefficients, if_true]
    rcases le_total 1 ((10 : ℝ) ^ (gainDB / 40.0)) with h | h <;> nlinarith
  · simp only [rawCoefficients, if_true, hne, if_false]
    rcases le_total 1 ((10 : ℝ) ^ (gainDB / 40.0)) with h | h <;> nlinarith

/-- Witness for C15: over the reals, with the real power, cosine, sine and square-root
functions, the mixer's low shelf (300 Hz) and high shelf (3000 Hz) at 44100 Hz, set to
`gainDB = 6`: `a0` is non-zero, the four band-edge identities hold with
`A = 10^(6/40)`, and `A^2 = 10^(6/20)`. -/
theorem shelf_gain_at_band_edges_witness :
    ((rawCoefficients ⟨fun x y => x ^ y, Real.pi, Real.cos, Real.sin, Real.sqrt, Real.sqrt 2⟩
        LowShelf (300 : ℝ) 44100 6).a0 ≠ 0 ∧
      ((NewShelf ⟨fun x y => x ^ y, Real.pi, Real.cos, Real.sin, Real.sqrt, Real.sqrt 2⟩
        LowShelf (300 : ℝ) 0 44100).computeCoefficients
        ⟨fun x y => x ^ y, Real.pi, Real.cos, Real.sin, Real.sqrt, Real.sqrt 2⟩ 6).b0 + ((NewShelf ⟨fun x y => x ^ y, Real.pi, Real.cos, Real.sin, Real.sqrt, Real.sqrt 2⟩
        LowShelf (300 : ℝ) 0 44100).computeCoefficients
        ⟨fun x y => x ^ y, Real.pi, Real.cos, Real.sin, Real.sqrt, Real.sqrt 2⟩ 6).b1 + ((NewShelf ⟨fun x y => x ^ y, Real.pi, Real.cos, Real.sin, Real.sqrt, Real.sqrt 2⟩
        LowShelf (300 : ℝ) 0 44100).computeCoefficients
        ⟨fun x y => x ^ y, Real.pi, Real.cos, Real.sin, Real.sqrt, Real.sqrt 2⟩ 6).b2
        = ((10 : ℝ) ^ ((6 : ℝ) / 40)) ^ 2 * (1 + ((NewShelf ⟨fun x y => x ^ y, Real.pi, Real.cos, Real.sin, Real.sqrt, Real.sqrt 2⟩
        LowShelf (300 : ℝ) 0 44100).computeCoefficients
        ⟨fun x y => x ^ y, Real.pi, Real.cos, Real.sin, Real.sqrt, Real.sqrt 2⟩ 6).a1 + ((NewShelf ⟨fun x y => x ^ y, Real.pi, Real.cos, Real.sin, Real.sqrt, Real.sqrt 2⟩
        LowShelf (300 : ℝ) 0 44100).computeCoefficients
        ⟨fun x y => x ^ y, Real.pi, Real.cos, Real.sin, Real.sqrt, Real.sqrt 2⟩ 6).a2) ∧
      ((NewShelf ⟨fun x y => x ^ y, Real.pi, Real.cos, Real.sin, Real.sqrt, Real.sqrt 2⟩
        LowShelf (300 : ℝ) 0 44100).computeCoefficients
        ⟨fun x y => x ^ y, Real.pi, Real.cos, Real.sin, Real.sqrt, Real.sqrt 2⟩ 6).b0 - ((NewShelf ⟨fun x y => x ^ y, Real.pi, Real.cos, Real.sin, Real.sqrt, Real.sqrt 2⟩
        LowShelf (300 : ℝ) 0 44100).computeCoefficients
        ⟨fun x y => x ^ y, Real.pi, Real.cos, Real.sin, Real.sqrt, Real.sqrt 2⟩ 6).b1 + ((NewShelf ⟨fun x y => x ^ y, Real.pi, Real.cos, Real.sin, Real.sqrt, Real.sqrt 2⟩
        LowShelf (300 : ℝ) 0 44100).computeCoefficients
        ⟨fun x y => x ^ y, Real.pi, Real.cos, Real.sin, Real.sqrt, Real.sqrt 2⟩ 6).b2
        = 1 - ((NewShelf ⟨fun x y => x ^ y, Real.pi, Real.cos, Real.sin, Real.sqrt, Real.sqrt 2⟩
        LowShelf (300 : ℝ) 0 44100).computeCoefficients
        ⟨fun x y => x ^ y, Real.pi, Real.cos, Real.sin, Real.sqrt, Real.sqrt 2⟩ 6).a1 + ((NewShelf ⟨fun x y => x ^ y, Real.pi, Real.cos, Real.sin, Real.sqrt, Real.sqrt 2⟩
        LowShelf (300 : ℝ) 0 44100).computeCoefficients
        ⟨fun x y => x ^ y, Real.pi, Real.cos, Real.sin, Real.sqrt, Real.sqrt 2⟩ 6).a2) ∧
    ((rawCoefficients ⟨fun x y => x ^ y, Real.pi, Real.cos, Real.sin, Real.sqrt, Real.sqrt 2⟩
        HighShelf (3000 : ℝ) 44100 6).a0 ≠ 0 ∧
      ((NewShelf ⟨fun x y => x ^ y, Real.pi, Real.cos, Real.sin, Real.sqrt, Real.sqrt 2⟩
        HighShelf (3000 : ℝ) 0 44100).computeCoefficients
        ⟨fun x y => x ^ y, Real.pi, Real.cos, Real.sin, Real.sqrt, Real.sqrt 2⟩ 6).b0 + ((NewShelf ⟨fun x y => x ^ y, Real.pi, Real.cos, Real.sin, Real.sqrt, Real.sqrt 2⟩
        HighShelf (3000 : ℝ) 0 44100).computeCoefficients
        ⟨fun x y => x ^ y, Real.pi, Real.cos, Real.sin, Real.sqrt, Real.sqrt 2⟩ 6).b1 + ((NewShelf ⟨fun x y => x ^ y, Real.pi, Real.cos, Real.sin, Real.sqrt, Real.sqrt 2⟩
        HighShelf (3000 : ℝ) 0 44100).computeCoefficients
        ⟨fun x y => x ^ y, Real.pi, Real.cos, Real.sin, Real.sqrt, Real.sqrt 2⟩ 6).b2
        = 1 + ((NewShelf ⟨fun x y => x ^ y, Real.pi, Real.cos, Real.sin, Real.sqrt, Real.sqrt 2⟩
        HighShelf (3000 : ℝ) 0 44100).computeCoefficients
        ⟨fun x y => x ^ y, Real.pi, Real.cos, Real.sin, Real.sqrt, Real.sqrt 2⟩ 6).a1 + ((NewShelf ⟨fun x y => x ^ y, Real.pi, Real.cos, Real.sin, Real.sqrt, Real.sqrt 2⟩
        HighShelf (3000 : ℝ) 0 44100).computeCoefficients
        ⟨fun x y => x ^ y, Real.pi, Real.cos, Real.sin, Real.sqrt, Real.sqrt 2⟩ 6).a2 ∧
      ((NewShelf ⟨fun x y => x ^ y, Real.pi, Real.cos, Real.sin, Real.sqrt, Real.sqrt 2⟩
        HighShelf (3000 : ℝ) 0 44100).computeCoefficients
        ⟨fun x y => x ^ y, Real.pi, Real.cos, Real.sin, Real.sqrt, Real.sqrt 2⟩ 6).b0 - ((NewShelf ⟨fun x y => x ^ y, Real.pi, Real.cos, Real.sin, Real.sqrt, Real.sqrt 2⟩
        HighShelf (3000 : ℝ) 0 44100).computeCoefficients
        ⟨fun x y => x ^ y, Real.pi, Real.cos, Real.sin, Real.sqrt, Real.sqrt 2⟩ 6).b1 + ((NewShelf ⟨fun x y => x ^ y, Real.pi, Real.cos, Real.sin, Real.sqrt, Real.sqrt 2⟩
        HighShelf (3000 : ℝ) 0 44100).computeCoefficients
        ⟨fun x y => x ^ y, Real.pi, Real.cos, Real.sin, Real.sqrt, Real.sqrt 2⟩ 6).b2
        = ((10 : ℝ) ^ ((6 : ℝ) / 40)) ^ 2 * (1 - ((NewShelf ⟨fun x y => x ^ y, Real.pi, Real.cos, Real.sin, Real.sqrt, Real.sqrt 2⟩
        HighShelf (3000 : ℝ) 0 44100).computeCoefficients
        ⟨fun x y => x ^ y, Real.pi, Real.cos, Real.sin, Real.sqrt, Real.sqrt 2⟩ 6).a1 + ((NewShelf ⟨fun x y => x ^ y, Real.pi, Real.cos, Real.sin, Real.sqrt, Real.sqrt 2⟩
        HighShelf (3000 : ℝ) 0 44100).computeCoefficients
        ⟨fun x y => x ^ y, Real.pi, Real.cos, Real.sin, Real.sqrt, Real.sqrt 2⟩ 6).a2)) ∧
    ((10 : ℝ) ^ ((6 : ℝ) / 40)) ^ 2 = (10 : ℝ) ^ ((6 : ℝ) / 20) :=
  ⟨⟨(real_a0_pos_gain LowShelf (Or.inl rfl) 300 44100 6 (by norm_num) (by norm_num)
        (by norm_num)).ne.symm,
      (shelf_gain_at_band_edges ⟨fun x y => x ^ y, Real.pi, Real.cos, Real.sin, Real.sqrt, Real.sqrt 2⟩
        (NewShelf ⟨fun x y => x ^ y, Real.pi, Real.cos, Real.sin, Real.sqrt, Real.sqrt 2⟩ LowShelf (300 : ℝ) 0 44100) 6
        (real_a0_pos_gain LowShelf (Or.inl rfl) 300 44100 6 (by norm_num) (by norm_num)
          (by norm_num)).ne.symm _ rfl _ rfl).1 rfl⟩,
    ⟨(real_a0_pos_gain HighShelf (Or.inr rfl) 3000 44100 6 (by norm_num) (by norm_num)
        (by norm_num)).ne.symm,
      (shelf_gain_at_band_edges ⟨fun x y => x ^ y, Real.pi, Real.cos, Real.sin, Real.sqrt, Real.sqrt 2⟩
        (NewShelf ⟨fun x y => x ^ y, Real.pi, Real.cos, Real.sin, Real.sqrt, Real.sqrt 2⟩ HighShelf (3000 : ℝ) 0 44100) 6
        (real_a0_pos_gain HighShelf (Or.inr rfl) 3000 44100 6 (by norm_num) (by norm_num)
          (by norm_num)).ne.symm _ rfl _ rfl).2 rfl⟩,
    by
      rw [← Real.rpow_natCast, ← Real.rpow_mul (by norm_num)]
      norm_num⟩

/-! ## Left and right channels -/

theorem volumeStep_pairs (T : α) (l : List α) (s : α × List α) (j : Nat)
    (hj : j * 2 + 1 < s.2.length) (h : ∀ i : Nat, s.2[i * 2]? = s.2[i * 2 + 1]?) :
    ∀ i : Nat, (volumeStep T l l s j).2[i * 2]? = (volumeStep T l l s j).2[i * 2 + 1]? := by
  intro i
  simp only [volumeStep, List.getElem?_set, List.length_set]
  rcases eq_or_ne i j with rfl | hij
  · have h1 : ¬ (i * 2 + 1 = i * 2) := by omega
    have h2 : i * 2 < s.2.length := by omega
    simp [h1, h2, hj]
  · have h1 : ¬ (j * 2 + 1 = i * 2) := by omega
    have h2 : ¬ (j * 2 = i * 2) := by omega
    have h3 : ¬ (j * 2 + 1 = i * 2 + 1) := by omega
    have h4 : ¬ (j * 2 = i * 2 + 1) := by omega
    simp only [h1, h2, h3, h4, if_false]
    exact h i

theorem foldl_volumeStep_pairs (T : α) (l : List α) (n : Nat) (is : List Nat)
    (his : ∀ j ∈ is, j < n) (s : α × List α) (hlen : s.2.length = n * 2)
    (h : ∀ i : Nat, s.2[i * 2]? = s.2[i * 2 + 1]?) :
    ∀ i : Nat, (is.foldl (volumeStep T l l) s).2[i * 2]?
      = (is.foldl (volumeStep T l l) s).2[i * 2 + 1]? := by
  induction is generalizing s with
  | nil => exact h
  | cons j is ih =>
    rw [List.foldl_cons]
    have hj : j < n := his j (List.mem_cons_self _ _)
    apply ih (fun k hk => his k (List.mem_cons_of_mem _ hk))
    · rw [volumeStep_snd_length, hlen]
    · exact volumeStep_pairs T l s j (by rw [hlen]; omega) h

theorem Mix_channels (m : Mixer α) (hL : m.lowShelfL = m.lowShelfR)
    (hH : m.highShelfL = m.highShelfR) (n : Nat) :
    (m.Mix n).2.lowShelfL = (m.Mix n).2.lowShelfR ∧
    (m.Mix n).2.highShelfL = (m.Mix n).2.highShelfR ∧
    ∀ i : Nat, (m.Mix n).1[i * 2]? = (m.Mix n).1[i * 2 + 1]? := by
  have hz : ∀ i : Nat, (List.replicate (n * 2) (0 : α))[i * 2]?
      = (List.replicate (n * 2) (0 : α))[i * 2 + 1]? := by
    intro i
    simp only [List.getElem?_replicate]
    by_cases hi : i < n
    · have h1 : i * 2 < n * 2 := by omega
      have h2 : i * 2 + 1 < n * 2 := by omega
      simp [h1, h2]
    · have h1 : ¬ i * 2 < n * 2 := by omega
      have h2 : ¬ i * 2 + 1 < n * 2 := by omega
      simp [h1, h2]
  unfold Mixer.Mix
  cases hp : m.power
  · simp only [Bool.not_false, if_true]
    exact ⟨hL, hH, hz⟩
  · simp only [Bool.not_true, Bool.false_eq_true, if_false]
    rw [hL, hH]
    refine ⟨rfl, rfl, ?_⟩
    exact foldl_volumeStep_pairs _ _ n _ (fun j hj => List.mem_range.1 hj) _
      (List.length_replicate _ _) hz

theorem Reachable_channels (M : Math α) (newRand : Int → Rng α) (m : Mixer α)
    (h : Reachable M newRand m) :
    m.lowShelfL = m.lowShelfR ∧ m.highShelfL = m.highShelfR := by
  induction h with
  | newMixer int63 sampleRate => exact ⟨rfl, rfl⟩
  | setPower b _ ih => exact ih
  | setMasterVolume v _ ih => exact ih
  | setColor v _ ih => exact ih
  | setBass v _ ih =>
    refine ⟨?_, ih.2⟩
    simp only [Mixer.SetBass, ih.1]
  | setTreble v _ ih =>
    refine ⟨ih.1, ?_⟩
    simp only [Mixer.SetTreble, ih.2]
  | reseedRNG seed _ ih => exact ih
  | mix n _ ih => exact ⟨(Mix_channels _ ih.1 ih.2 n).1, (Mix_channels _ ih.1 ih.2 n).2.1⟩

/-- C14: left and right channels are always identical. In every mixer state reachable from
`NewMixer` by setters, `ReseedRNG` and `Mix` calls, `lowShelfL` and `lowShelfR` have equal
coefficients and delay registers, and so have `highShelfL` and `highShelfR`; therefore for
every `n` and every `i < n` the block returned by `Mix(n)` has
`result[2*i] = result[2*i+1]`. -/
theorem channels_identical (M : Math α) (newRand : Int → Rng α) (m : Mixer α)
    (h : Reachable M newRand m) :
    (m.lowShelfL.coefficients = m.lowShelfR.coefficients ∧
      m.lowShelfL.delays = m.lowShelfR.delays) ∧
    (m.highShelfL.coefficients = m.highShelfR.coefficients ∧
      m.highShelfL.delays = m.highShelfR.delays) ∧
    ∀ n i : Nat, i < n →
      ∃ x : α, (m.Mix n).1[2 * i]? = some x ∧ (m.Mix n).1[2 * i + 1]? = some x := by
  obtain ⟨hL, hH⟩ := Reachable_channels M newRand m h
  refine ⟨by rw [hL]; exact ⟨rfl, rfl⟩, by rw [hH]; exact ⟨rfl, rfl⟩, fun n i hi => ?_⟩
  have hlen : 2 * i < (m.Mix n).1.length := by rw [Mix_length]; omega
  refine ⟨(m.Mix n).1[2 * i], List.getElem?_eq_getElem hlen, ?_⟩
  have := (Mix_channels m hL hH n).2.2 i
  rw [Nat.mul_comm i 2] at this
  rw [← this]
  exact List.getElem?_eq_getElem hlen

/-- Witness for C14: the state reached by constructing a mixer, switching it on, setting bass
to 50 and treble to -30 and rendering 4 samples is reachable; its channel filters agree and a
further `Mix(3)` returns equal left and right samples. -/
theorem channels_identical_witness :
    Reachable ratMath ratRand
      (((((NewMixer ratMath ratRand 1 44100).SetPower true).SetBass ratMath 50).SetTreble
        ratMath (-30)).Mix 4).2 ∧
    ((((((NewMixer ratMath ratRand 1 44100).SetPower true).SetBass ratMath 50).SetTreble
        ratMath (-30)).Mix 4).2.lowShelfL.delays
      = (((((NewMixer ratMath ratRand 1 44100).SetPower true).SetBass ratMath 50).SetTreble
        ratMath (-30)).Mix 4).2.lowShelfR.delays) ∧
    ∀ i : Nat, i < 3 → ∃ x : ℚ,
      ((((((NewMixer ratMath ratRand 1 44100).SetPower true).SetBass ratMath 50).SetTreble
        ratMath (-30)).Mix 4).2.Mix 3).1[2 * i]? = some x ∧
      ((((((NewMixer ratMath ratRand 1 44100).SetPower true).SetBass ratMath 50).SetTreble
        ratMath (-30)).Mix 4).2.Mix 3).1[2 * i + 1]? = some x :=
  ⟨.mix 4 (.setTreble (-30) (.setBass 50 (.setPower true (.newMixer 1 44100)))),
    (channels_identical ratMath ratRand _
      (.mix 4 (.setTreble (-30) (.setBass 50 (.setPower true (.newMixer 1 44100)))))).1.2,
    (channels_identical ratMath ratRand _
      (.mix 4 (.setTreble (-30) (.setBass 50 (.setPower true (.newMixer 1 44100)))))).2.2 3⟩

/-! ## Range of the generator output -/

theorem generateWhite_bounds (v : α) (hv : 0 ≤ v) (n : Nat) (rng : Rng α)
    (hr : WhiteInRange rng) : ∀ x ∈ (generateWhite v n rng).1, |x| ≤ 1 * v := by
  induction n generalizing rng with
  | zero => simp [generateWhite]
  | succ n ih =>
    intro x hx
    simp only [generateWhite, Rng.Float64] at hx
    rcases List.mem_cons.1 hx with rfl | hx
    · rw [abs_mul, abs_of_nonneg hv]
      exact mul_le_mul_of_nonneg_right (white_abs_le rng hr rng.pos) hv
    · exact ih rng.Float64.2 hr x hx

theorem onePole_abs_le (c s w : α) (hc0 : 0 ≤ c) (hc1 : c ≤ 1) (hs : |s| ≤ 1) (hw : |w| ≤ 1) :
    |c * (w - s) + s| ≤ 1 := by
  obtain ⟨s1, s2⟩ := abs_le.1 hs
  obtain ⟨w1, w2⟩ := abs_le.1 hw
  have hc1' : 0 ≤ 1 - c := sub_nonneg.2 hc1
  rw [abs_le]
  constructor
  · nlinarith [mul_nonneg hc0 (show 0 ≤ w + 1 by linarith),
      mul_nonneg hc1' (show 0 ≤ s + 1 by linarith)]
  · nlinarith [mul_nonneg hc0 (show 0 ≤ 1 - w by linarith),
      mul_nonneg hc1' (show 0 ≤ 1 - s by linarith)]

theorem pinkStep_inUnit (st : Arr7 α) (w : α) (hs : st.InUnit) (hw : |w| ≤ 1) :
    (pinkStep st w).InUnit := by
  obtain ⟨h0, h1, h2, h3, h4, h5, h6⟩ := hs
  exact ⟨onePole_abs_le _ _ _ (by norm_num) (by norm_num) h0 hw,
    onePole_abs_le _ _ _ (by norm_num) (by norm_num) h1 hw,
    onePole_abs_le _ _ _ (by norm_num) (by norm_num) h2 hw,
    onePole_abs_le _ _ _ (by norm_num) (by norm_num) h3 hw,
    onePole_abs_le _ _ _ (by norm_num) (by norm_num) h4 hw,
    onePole_abs_le _ _ _ (by norm_num) (by norm_num) h5 hw,
    onePole_abs_le _ _ _ (by norm_num) (by norm_num) h6 hw⟩

theorem pinkSample_abs_le (st : Arr7 α) (v : α) (hv : 0 ≤ v) (hs : st.InUnit) :
    |(st.s0 + st.s1 + st.s2 + st.s3 + st.s4 + st.s5 + st.s6) / 2.5 * v| ≤ 2.8 * v := by
  obtain ⟨h0, h1, h2, h3, h4, h5, h6⟩ := hs
  obtain ⟨a0, b0⟩ := abs_le.1 h0
  obtain ⟨a1, b1⟩ := abs_le.1 h1
  obtain ⟨a2, b2⟩ := abs_le.1 h2
  obtain ⟨a3, b3⟩ := abs_le.1 h3
  obtain ⟨a4, b4⟩ := abs_le.1 h4
  obtain ⟨a5, b5⟩ := abs_le.1 h5
  obtain ⟨a6, b6⟩ := abs_le.1 h6
  rw [abs_mul, abs_of_nonneg hv]
  apply mul_le_mul_of_nonneg_right _ hv
  rw [abs_le]
  constructor
  · rw [le_div_iff₀ (by norm_num)]
    norm_num
    linarith
  · rw [div_le_iff₀ (by norm_num)]
    norm_num
    linarith

theorem generatePinkState_bounds (v : α) (hv : 0 ≤ v) (n : Nat) (st : Arr7 α) (rng : Rng α)
    (hs : st.InUnit) (hr : WhiteInRange rng) :
    (generatePinkState v n st rng).2.1.InUnit ∧
    ∀ x ∈ (generatePinkState v n st rng).1, |x| ≤ 2.8 * v := by
  induction n generalizing st rng with
  | zero => exact ⟨hs, by simp [generatePinkState]⟩
  | succ n ih =>
    have hs' := pinkStep_inUnit st (rng.stream rng.pos * 2 - 1) hs (white_abs_le rng hr rng.pos)
    obtain ⟨i1, i2⟩ := ih (pinkStep st (rng.stream rng.pos * 2 - 1)) rng.Float64.2 hs' hr
    simp only [generatePinkState, Rng.Float64] at i1 i2 ⊢
    refine ⟨i1, ?_⟩
    intro x hx
    rcases List.mem_cons.1 hx with rfl | hx
    · exact pinkSample_abs_le _ v hv hs'
    · exact i2 x hx

theorem generateBlueState_bounds (v : α) (hv : 0 ≤ v) (n : Nat) (prev : α) (rng : Rng α)
    (hs : |prev| ≤ 1) (hr : WhiteInRange rng) :
    |(generateBlueState v n prev rng).2.1| ≤ 1 ∧
    ∀ x ∈ (generateBlueState v n prev rng).1, |x| ≤ 2 * v := by
  induction n generalizing prev rng with
  | zero => exact ⟨hs, by simp [generateBlueState]⟩
  | succ n ih =>
    have hw := white_abs_le rng hr rng.pos
    obtain ⟨i1, i2⟩ := ih (rng.stream rng.pos * 2 - 1) rng.Float64.2 hw hr
    simp only [generateBlueState, Rng.Float64] at i1 i2 ⊢
    refine ⟨i1, ?_⟩
    intro x hx
    rcases List.mem_cons.1 hx with rfl | hx
    · rw [abs_mul, abs_of_nonneg hv]
      apply mul_le_mul_of_nonneg_right _ hv
      obtain ⟨s1, s2⟩ := abs_le.1 hs
      obtain ⟨w1, w2⟩ := abs_le.1 hw
      rw [abs_le]
      constructor <;> linarith
    · exact i2 x hx

theorem generateVioletState_bounds (v : α) (hv : 0 ≤ v) (n : Nat) (pw pb : α) (rng : Rng α)
    (hpw : |pw| ≤ 1) (hpb : |pb| ≤ 2) (hr : WhiteInRange rng) :
    (|(generateVioletState v n pw pb rng).2.1.1| ≤ 1 ∧
      |(generateVioletState v n pw pb rng).2.1.2| ≤ 2) ∧
    ∀ x ∈ (generateVioletState v n pw pb rng).1, |x| ≤ 4 * v := by
  induction n generalizing pw pb rng with
  | zero => exact ⟨⟨hpw, hpb⟩, by simp [generateVioletState]⟩
  | succ n ih =>
    have hw := white_abs_le rng hr rng.pos
    obtain ⟨s1, s2⟩ := abs_le.1 hpw
    obtain ⟨b1, b2⟩ := abs_le.1 hpb
    obtain ⟨w1, w2⟩ := abs_le.1 hw
    have hb : |rng.stream rng.pos * 2 - 1 - pw| ≤ 2 := by
      rw [abs_le]
      constructor <;> linarith
    obtain ⟨i1, i2⟩ := ih (rng.stream rng.pos * 2 - 1) (rng.stream rng.pos * 2 - 1 - pw)
      rng.Float64.2 hw hb hr
    simp only [generateVioletState, Rng.Float64] at i1 i2 ⊢
    refine ⟨i1, ?_⟩
    intro x hx
    rcases List.mem_cons.1 hx with rfl | hx
    · rw [abs_mul, abs_of_nonneg hv]
      apply mul_le_mul_of_nonneg_right _ hv
      obtain ⟨c1, c2⟩ := abs_le.1 hb
      rw [abs_le]
      constructor <;> linarith
    · exact i2 x hx

theorem bound_widen (k v : α) (hk : k ≤ 4) (hv : 0 ≤ v) (l : List α)
    (h : ∀ x ∈ l, |x| ≤ k * v) : ∀ x ∈ l, |x| ≤ 4 * v :=
  fun x hx => (h x hx).trans (mul_le_mul_of_nonneg_right hk hv)

theorem generateColor_whiteInRange (g : Generator α) (c : Color) (p : Bool) (n : Nat) (v : α)
    (hr : WhiteInRange g.rng) : WhiteInRange (g.generateColor c p n v).2.rng := by
  rw [generateColor_rng]
  exact hr

theorem generateColor_bounds (g : Generator α) (c : Color) (p : Bool) (n : Nat) (v : α)
    (hv : 0 ≤ v) (hs : g.SlotsInRange) (hr : WhiteInRange g.rng) :
    (g.generateColor c p n v).2.SlotsInRange ∧
    ∀ x ∈ (g.generateColor c p n v).1, |x| ≤ 4 * v := by
  obtain ⟨⟨p1, b1, l1, w1, v1⟩, ⟨p2, b2, l2, w2, v2⟩⟩ := hs
  have hW := bound_widen 1 v (by norm_num) hv _ (generateWhite_bounds v hv n g.rng hr)
  unfold Generator.generateColor
  split_ifs
  · exact ⟨⟨⟨p1, b1, l1, w1, v1⟩, ⟨p2, b2, l2, w2, v2⟩⟩, hW⟩
  · obtain ⟨i1, i2⟩ := generatePinkState_bounds v hv n g.pink g.rng p1 hr
    exact ⟨⟨⟨i1, b1, l1, w1, v1⟩, ⟨p2, b2, l2, w2, v2⟩⟩,
      bound_widen 2.8 v (by norm_num) hv _ i2⟩
  · obtain ⟨i1, i2⟩ := generatePinkState_bounds v hv n g.pink2 g.rng p2 hr
    exact ⟨⟨⟨p1, b1, l1, w1, v1⟩, ⟨i1, b2, l2, w2, v2⟩⟩,
      bound_widen 2.8 v (by norm_num) hv _ i2⟩
  · obtain ⟨i1, i2⟩ := generateBrownState_bounds v hv n g.brown g.rng b1 hr
    exact ⟨⟨⟨p1, i1, l1, w1, v1⟩, ⟨p2, b2, l2, w2, v2⟩⟩,
      bound_widen 3.5 v (by norm_num) hv _ i2⟩
  · obtain ⟨i1, i2⟩ := generateBrownState_bounds v hv n g.brown2 g.rng b2 hr
    exact ⟨⟨⟨p1, b1, l1, w1, v1⟩, ⟨p2, i1, l2, w2, v2⟩⟩,
      bound_widen 3.5 v (by norm_num) hv _ i2⟩
  · obtain ⟨i1, i2⟩ := generateBlueState_bounds v hv n g.bluePrev g.rng l1 hr
    exact ⟨⟨⟨p1, b1, i1, w1, v1⟩, ⟨p2, b2, l2, w2, v2⟩⟩,
      bound_widen 2 v (by norm_num) hv _ i2⟩
  · obtain ⟨i1, i2⟩ := generateBlueState_bounds v hv n g.bluePrev2 g.rng l2 hr
    exact ⟨⟨⟨p1, b1, l1, w1, v1⟩, ⟨p2, b2, i1, w2, v2⟩⟩,
      bound_widen 2 v (by norm_num) hv _ i2⟩
  · obtain ⟨⟨i1, i1'⟩, i2⟩ :=
      generateVioletState_bounds v hv n g.violetPrevWhite g.violetPrevBlue g.rng w1 v1 hr
    exact ⟨⟨⟨p1, b1, l1, i1, i1'⟩, ⟨p2, b2, l2, w2, v2⟩⟩, i2⟩
  · obtain ⟨⟨i1, i1'⟩, i2⟩ :=
      generateVioletState_bounds v hv n g.violetPrevWhite2 g.violetPrevBlue2 g.rng w2 v2 hr
    exact ⟨⟨⟨p1, b1, l1, w1, v1⟩, ⟨p2, b2, l2, i1, i1'⟩⟩, i2⟩
  · exact ⟨⟨⟨p1, b1, l1, w1, v1⟩, ⟨p2, b2, l2, w2, v2⟩⟩, hW⟩

theorem getD_abs_le (l : List α) (j : Nat) (B : α) (hB : 0 ≤ B) (h : ∀ x ∈ l, |x| ≤ B) :
    |l.getD j 0| ≤ B := by
  rw [List.getD_eq_getElem?_getD]
  rcases hj : l[j]? with _ | x
  · simpa using hB
  · simpa using h x (List.getElem?_mem hj)

theorem crossfade_bounds (a b : List α) (t : α) (n : Nat) (B : α) (hB : 0 ≤ B)
    (ht0 : 0 ≤ t) (ht1 : t ≤ 1) (ha : ∀ x ∈ a, |x| ≤ B) (hb : ∀ x ∈ b, |x| ≤ B) :
    ∀ x ∈ crossfade a b t n, |x| ≤ B := by
  intro x hx
  simp only [crossfade, List.mem_map, List.mem_range] at hx
  obtain ⟨j, -, rfl⟩ := hx
  obtain ⟨a1, a2⟩ := abs_le.1 (getD_abs_le a j B hB ha)
  obtain ⟨b1, b2⟩ := abs_le.1 (getD_abs_le b j B hB hb)
  have ht1' : 0 ≤ 1 - t := sub_nonneg.2 ht1
  rw [abs_le]
  constructor
  · nlinarith [mul_nonneg ht1' (show 0 ≤ a.getD j 0 + B by linarith),
      mul_nonneg ht0 (show 0 ≤ b.getD j 0 + B by linarith)]
  · nlinarith [mul_nonneg ht1' (show 0 ≤ B - a.getD j 0 by linarith),
      mul_nonneg ht0 (show 0 ≤ B - b.getD j 0 by linarith)]

theorem blendLoop_bounds (g : Generator α) (s : α) (n : Nat) (v : α) (hv : 0 ≤ v)
    (hs : g.SlotsInRange) (hr : WhiteInRange g.rng) (anchors : List (α × Color)) :
    ((blendLoop g s n v anchors).1.length = n ∧
      (blendLoop g s n v anchors).2.SlotsInRange ∧
      WhiteInRange (blendLoop g s n v anchors).2.rng) ∧
    ∀ x ∈ (blendLoop g s n v anchors).1, |x| ≤ 4 * v := by
  have base : ∀ (c : Color),
      ((g.generateColor c true n v).1.length = n ∧ (g.generateColor c true n v).2.SlotsInRange ∧
        WhiteInRange (g.generateColor c true n v).2.rng) ∧
      ∀ x ∈ (g.generateColor c true n v).1, |x| ≤ 4 * v := fun c =>
    ⟨⟨generateColor_length g c true n v, (generateColor_bounds g c true n v hv hs hr).1,
      generateColor_whiteInRange g c true n v hr⟩, (generateColor_bounds g c true n v hv hs hr).2⟩
  induction anchors with
  | nil => simpa only [blendLoop] using base White
  | cons lo rest ih =>
    cases rest with
    | nil => simpa only [blendLoop] using base White
    | cons hi rest =>
      simp only [blendLoop]
      split_ifs with h1 h2 h3
      · exact base lo.2
      · exact base hi.2
      · have ha := generateColor_bounds g lo.2 true n v hv hs hr
        have hra := generateColor_whiteInRange g lo.2 true n v hr
        have hb := generateColor_bounds (g.generateColor lo.2 true n v).2 hi.2 false n v hv
          ha.1 hra
        refine ⟨⟨crossfade_length _ _ _ _, hb.1,
          generateColor_whiteInRange _ hi.2 false n v hra⟩, ?_⟩
        have t0 : (0 : α) ≤ (s - lo.1) / (hi.1 - lo.1) :=
          le_trans (by norm_num) (le_of_lt (not_le.1 h2))
        have t1 : (s - lo.1) / (hi.1 - lo.1) ≤ 1 :=
          le_trans (le_of_lt (not_le.1 h3)) (by norm_num)
        exact crossfade_bounds _ _ _ n (4 * v) (by positivity) t0 t1 ha.2 hb.2
      · exact ih

theorem GenerateBlended_bounds (g : Generator α) (s : α) (n : Nat) (v : α) (hv : 0 ≤ v)
    (hs : g.SlotsInRange) (hr : WhiteInRange g.rng) :
    ((g.GenerateBlended s n v).1.length = n ∧
      (g.GenerateBlended s n v).2.SlotsInRange ∧
      WhiteInRange (g.GenerateBlended s n v).2.rng) ∧
    ∀ x ∈ (g.GenerateBlended s n v).1, |x| ≤ 4 * v := by
  have base : ∀ (c : Color),
      ((g.generateColor c true n v).1.length = n ∧ (g.generateColor c true n v).2.SlotsInRange ∧
        WhiteInRange (g.generateColor c true n v).2.rng) ∧
      ∀ x ∈ (g.generateColor c true n v).1, |x| ≤ 4 * v := fun c =>
    ⟨⟨generateColor_length g c true n v, (generateColor_bounds g c true n v hv hs hr).1,
      generateColor_whiteInRange g c true n v hr⟩, (generateColor_bounds g c true n v hv hs hr).2⟩
  unfold Generator.GenerateBlended
  split_ifs
  · exact base Brown
  · exact base Violet
  · exact blendLoop_bounds g s n v hv hs hr colorAnchors

theorem generateWhite_state (v : α) (n : Nat) (rng : Rng α) :
    (generateWhite v n rng).2 = (generateWhite 0 n rng).2 := by
  rw [generateWhite_rng, generateWhite_rng]

theorem generatePinkState_state (v : α) (n : Nat) (st : Arr7 α) (rng : Rng α) :
    (generatePinkState v n st rng).2 = (generatePinkState 0 n st rng).2 := by
  induction n generalizing st rng with
  | zero => rfl
  | succ n ih => simp only [generatePinkState, ih]

theorem generateBrownState_state (v : α) (n : Nat) (st : α) (rng : Rng α) :
    (generateBrownState v n st rng).2 = (generateBrownState 0 n st rng).2 := by
  induction n generalizing st rng with
  | zero => rfl
  | succ n ih => simp only [generateBrownState, ih]

theorem generateBlueState_state (v : α) (n : Nat) (st : α) (rng : Rng α) :
    (generateBlueState v n st rng).2 = (generateBlueState 0 n st rng).2 := by
  induction n generalizing st rng with
  | zero => rfl
  | succ n ih => simp only [generateBlueState, ih]

theorem generateVioletState_state (v : α) (n : Nat) (pw pb : α) (rng : Rng α) :
    (generateVioletState v n pw pb rng).2 = (generateVioletState 0 n pw pb rng).2 := by
  induction n generalizing pw pb rng with
  | zero => rfl
  | succ n ih => simp only [generateVioletState, ih]

theorem generateColor_state (g : Generator α) (c : Color) (p : Bool) (n : Nat) (v : α) :
    (g.generateColor c p n v).2 = (g.generateColor c p n 0).2 := by
  unfold Generator.generateColor
  split_ifs
  · simp only [generateWhite_state v]
  · simp only [generatePinkState_state v]
  · simp only [generatePinkState_state v]
  · simp only [generateBrownState_state v]
  · simp only [generateBrownState_state v]
  · simp only [generateBlueState_state v]
  · simp only [generateBlueState_state v]
  · simp only [generateVioletState_state v]
  · simp only [generateVioletState_state v]
  · simp only [generateWhite_state v]

theorem generateColor_slots (g : Generator α) (c : Color) (p : Bool) (n : Nat) (v : α)
    (hs : g.SlotsInRange) (hr : WhiteInRange g.rng) :
    (g.generateColor c p n v).2.SlotsInRange := by
  rw [generateColor_state]
  exact (generateColor_bounds g c p n 0 le_rfl hs hr).1

theorem blendLoop_slots (g : Generator α) (s : α) (n : Nat) (v : α)
    (hs : g.SlotsInRange) (hr : WhiteInRange g.rng) (anchors : List (α × Color)) :
    (blendLoop g s n v anchors).2.SlotsInRange ∧
    WhiteInRange (blendLoop g s n v anchors).2.rng := by
  have base : ∀ (c : Color), (g.generateColor c true n v).2.SlotsInRange ∧
      WhiteInRange (g.generateColor c true n v).2.rng := fun c =>
    ⟨generateColor_slots g c true n v hs hr, generateColor_whiteInRange g c true n v hr⟩
  induction anchors with
  | nil => simpa only [blendLoop] using base White
  | cons lo rest ih =>
    cases rest with
    | nil => simpa only [blendLoop] using base White
    | cons hi rest =>
      simp only [blendLoop]
      split_ifs
      · exact base lo.2
      · exact base hi.2
      · have hra := generateColor_whiteInRange g lo.2 true n v hr
        exact ⟨generateColor_slots _ hi.2 false n v (base lo.2).1 hra,
          generateColor_whiteInRange _ hi.2 false n v hra⟩
      · exact ih

theorem GenReachable_inv (newRand : Int → Rng α) (hrand : ∀ seed, WhiteInRange (newRand seed))
    (g : Generator α) (h : GenReachable newRand g) : g.SlotsInRange ∧ WhiteInRange g.rng := by
  induction h with
  | newGenerator int63 sampleRate =>
    refine ⟨?_, hrand int63⟩
    simp [Generator.SlotsInRange, Arr7.InUnit, NewGenerator]
  | generate c n v _ ih =>
    exact ⟨generateColor_slots _ c true n v ih.1 ih.2,
      generateColor_whiteInRange _ c true n v ih.2⟩
  | generateBlended s n v _ ih =>
    unfold Generator.GenerateBlended
    split_ifs
    · exact ⟨generateColor_slots _ _ true n v ih.1 ih.2,
        generateColor_whiteInRange _ _ true n v ih.2⟩
    · exact ⟨generateColor_slots _ _ true n v ih.1 ih.2,
        generateColor_whiteInRange _ _ true n v ih.2⟩
    · exact blendLoop_slots _ s n v ih.1 ih.2 colorAnchors
  | reseed seed _ ih => exact ⟨ih.1, hrand seed⟩

/-- C11, counterexample: on a freshly constructed generator whose random source delivers
0 and then 3/8 (white samples -1 and -1/4), `GenerateBlended(100, 2, 1)` returns
`[-1, 7/4]`; the second sample lies outside `[-1, 1]`. -/
theorem generateBlended_range_counterexample :
    GenReachable ratRand (NewGenerator ratRand 0 44100) ∧
    WhiteInRange (NewGenerator ratRand 0 44100).rng ∧
    ((NewGenerator ratRand 0 44100).GenerateBlended 100 2 1).1 = [-1, 7 / 4] ∧
    ¬ ∀ x ∈ ((NewGenerator ratRand 0 44100).GenerateBlended 100 2 1).1,
        -(1 : ℚ) ≤ x ∧ x ≤ 1 := by
  have e : ((NewGenerator ratRand 0 44100).GenerateBlended 100 2 1).1 = [-1, 7 / 4] := by
    simp [Generator.GenerateBlended, Generator.generateColor, generateVioletState,
      NewGenerator, ratRand, Rng.Float64, Violet, White, Pink, Brown, Blue]
    norm_num
  refine ⟨.newGenerator 0 44100, ratRand_whiteInRange 0, e, ?_⟩
  rw [e]
  intro h
  have := (h (7 / 4) (by simp)).2
  norm_num at this

/-- C11, amended: for every `colorSlider`, every sample count `n`, every `volume >= 0`, every
generator state reachable from a freshly constructed generator by `Generate`,
`GenerateBlended` and `Reseed` calls, and random sources whose white samples lie in
`[-1, 1]`, `GenerateBlended(colorSlider, n, volume)` returns exactly `n` values, each of them
in `[-4*volume, 4*volume]`. -/
theorem generateBlended_length_and_range (newRand : Int → Rng α)
    (hrand : ∀ seed, WhiteInRange (newRand seed)) (g : Generator α)
    (hg : GenReachable newRand g) (colorSlider : α) (n : Nat) (volume : α) (hv : 0 ≤ volume) :
    (g.GenerateBlended colorSlider n volume).1.length = n ∧
    ∀ x ∈ (g.GenerateBlended colorSlider n volume).1, -(4 * volume) ≤ x ∧ x ≤ 4 * volume := by
  obtain ⟨hs, hr⟩ := GenReachable_inv newRand hrand g hg
  obtain ⟨⟨hl, -, -⟩, hb⟩ := GenerateBlended_bounds g colorSlider n volume hv hs hr
  exact ⟨hl, fun x hx => abs_le.1 (hb x hx)⟩

/-- Witness for C11 (amended): a generator after a Violet block and a reseed, blended at
slider 90 for 5 samples at volume 2. -/
theorem generateBlended_length_and_range_witness :
    ((∀ seed, WhiteInRange (ratRand seed)) ∧
      GenReachable ratRand
        (((NewGenerator ratRand 0 44100).Generate Violet 3 1).2.Reseed ratRand 5) ∧
      (0 : ℚ) ≤ 2) ∧
    ((((NewGenerator ratRand 0 44100).Generate Violet 3 1).2.Reseed ratRand 5).GenerateBlended
      90 5 2).1.length = 5 ∧
    ∀ x ∈ ((((NewGenerator ratRand 0 44100).Generate Violet 3 1).2.Reseed ratRand
        5).GenerateBlended 90 5 2).1, -(4 * 2 : ℚ) ≤ x ∧ x ≤ 4 * 2 :=
  ⟨⟨ratRand_whiteInRange, .reseed 5 (.generate Violet 3 1 (.newGenerator 0 44100)),
      by norm_num⟩,
    generateBlended_length_and_range ratRand ratRand_whiteInRange _
      (.reseed 5 (.generate Violet 3 1 (.newGenerator 0 44100))) 90 5 2 (by norm_num)⟩

end PinkNoise
